import Mathlib

/-!
# Space containment of goworld (`engine/entity/Space.go`)

A shallow embedding of the Space entity of goworld: the null-space singleton,
the entity set of a space, its optional AOI manager, and the containment
operations `enter`, `leave` and `move`, together with the lifecycle callbacks
`OnCreated`, `OnRestored` and `OnDestroy`.

Go pointers are addresses (`Ptr`); a nullable pointer is an `Option Ptr`.
The struct `Space` embeds `Entity` as its first field, so `&space.Entity` is the
address of the space itself: the entity record of a space lives in the entity
heap at the same address as its space record.

A Go `panic` (`gwlog.Panicf`) stops the function and keeps every write made
before it, so an operation yields an `Outcome`: the state it reached, and
whether it returned or panicked.

The collaborators whose code is outside `Space.go` (the AOI manager, the
client link, the overrides reached through `callCompositiveMethod`,
`Entity.Destroy`, the space manager) are called through the `trace`: each call
made by the code of `Space.go` is recorded there in program order.
A recorded call is taken to return: a failure raised inside the AOI library
itself by `Enter`, `Leave`, `Moved` or `NewTowerAOIManager` (as `Moved` raises
for an entity the manager never received, or the constructor for a tower range
of 0) is outside this file.
Statements guarded by `consts.DEBUG_SPACES` only write to the log and are left
out. `EntitySet` is a Go map used as a set; its methods `Add`, `Del` and
`Contains` are insertion, removal and membership in a `Finset` of addresses.
-/

namespace Goworld

/-- A Go pointer: the address of an entity (`*Entity`), of a space (`*Space`)
or of a client (`*GameClient`). -/
abbrev Ptr := Nat

/-- The type `common.EntityID`, a Go string. -/
abbrev EntityID := String

/-- A coordinate (`Coord`, a `float32`). Space.go only stores and forwards
coordinates, so a value is kept as its bit pattern. -/
structure Coord where
  bits : Nat
  deriving DecidableEq

/-- The type `Vector3` of positions. -/
structure Vector3 where
  X : Coord
  Y : Coord
  Z : Coord
  deriving DecidableEq

/-- The value built by `aoi.NewTowerAOIManager(minX, maxX, minY, maxY, towerRange)`.
The manager's own state is outside Space.go; calls into it are recorded in the
trace. -/
structure AOIManager where
  minX : Coord
  maxX : Coord
  minY : Coord
  maxY : Coord
  towerRange : Coord
  deriving DecidableEq

/-- The fields of `Entity` that Space.go reads or writes. `IsUseAOI` is the
result of the method `entity.IsUseAOI()` and `kindAttr` the value of
`GetInt(_SPACE_KIND_ATTR_KEY)`; both methods are declared outside Space.go. -/
structure Entity where
  ID : EntityID
  TypeName : String
  Position : Vector3
  Space : Option Ptr
  client : Option Ptr
  syncInfoFlag : Nat
  IsUseAOI : Bool
  kindAttr : Int
  deriving DecidableEq

/-- The fields of `Space` beyond the embedded `Entity`:
`entities EntitySet`, `Kind int` and `aoiMgr aoi.AOIManager` (nil when no
manager is installed). -/
structure Space where
  entities : Finset Ptr
  Kind : Int
  aoiMgr : Option AOIManager
  deriving DecidableEq

/-- The compositive methods that Space.go dispatches by name. -/
inductive Method where
  | OnSpaceInit
  | OnSpaceCreated
  | OnSpaceDestroy
  | OnEntityEnterSpace
  | OnEnterSpace
  | OnEntityLeaveSpace
  | OnLeaveSpace
  deriving DecidableEq

/-- A call made by the code of Space.go to one of its collaborators.
`aoiEnter` also records the client link of the entity as the manager finds it
during the call. -/
inductive Event where
  | aoiEnter (space entity : Ptr) (x z : Coord) (client : Option Ptr)
  | aoiLeave (space entity : Ptr)
  | aoiMoved (space entity : Ptr) (x z : Coord)
  | sendCreateEntity (client : Option Ptr) (entity : Ptr) (isPlayer : Bool)
  | sendDestroyEntity (client : Option Ptr) (entity : Ptr)
  | compositive (receiver : Ptr) (method : Method) (args : List Ptr)
  | destroy (entity : Ptr)
  | putSpace (space : Ptr)
  | delSpace (id : EntityID)
  deriving DecidableEq

/-- The process state that Space.go works on: the entity and space records by
address, the package variable `nilSpace`, the space manager's table, the
global entity table behind `GetEntity(entityID)`, and the trace of calls. -/
structure World where
  entity : Ptr → Entity
  space : Ptr → Space
  nilSpace : Option Ptr
  spaceManager : EntityID → Option Ptr
  entityManager : EntityID → Option Ptr
  trace : List Event

/-- How a call ended: it returned (`ok`) or it panicked (`panic`), in either
case with the state reached. -/
inductive Outcome where
  | ok (w : World)
  | panic (w : World)

/-- The state a call ended in. -/
def Outcome.world : Outcome → World
  | .ok w => w
  | .panic w => w

/-- Whether a call ended in a panic. -/
def Outcome.panicked : Outcome → Bool
  | .ok _ => false
  | .panic _ => true

/-- Sequencing of two statements: a panic in the first skips the second. -/
def Outcome.andThen (r : Outcome) (k : World → Outcome) : Outcome :=
  match r with
  | .ok w => k w
  | .panic w => .panic w

/-- The code outside Space.go that its functions run or depend on:
the override bodies that `callCompositiveMethod` resolves, the body of
`Entity.Destroy`, the space manager's `putSpace` (`none` when it does not
return), the order in which the Go runtime walks a map in a `range` loop, and
the two sync-flag constants. -/
structure Env where
  override : Ptr → Method → List Ptr → World → Outcome
  destroyBody : Ptr → World → Outcome
  putSpace : (EntityID → Option Ptr) → EntityID → Ptr → Option (EntityID → Option Ptr)
  rangeOrder : Finset Ptr → List Ptr
  sifSyncOwnClient : Nat
  sifSyncNeighborClients : Nat

/-- Write to the fields of the entity at address `p`. -/
def World.modEntity (w : World) (p : Ptr) (f : Entity → Entity) : World :=
  { w with entity := fun q => if q = p then f (w.entity q) else w.entity q }

/-- Write to the fields of the space at address `p`. -/
def World.modSpace (w : World) (p : Ptr) (f : Space → Space) : World :=
  { w with space := fun q => if q = p then f (w.space q) else w.space q }

/-- Record a call to a collaborator. -/
def World.emit (w : World) (ev : Event) : World :=
  { w with trace := w.trace ++ [ev] }

/-- Modelled from the spec: `gwutils.RunPanicless` is not in Space.go. A
failure raised inside the function it runs is caught at this boundary, logged,
and does not propagate; the writes made before the failure stay. -/
def RunPanicless (f : World → Outcome) (w : World) : Outcome :=
  .ok (f w).world

/-- The call `receiver.callCompositiveMethod(method, args...)`: the call is
recorded, then the override bodies run. -/
def callCompositiveMethod (env : Env) (receiver : Ptr) (method : Method)
    (args : List Ptr) (w : World) : Outcome :=
  env.override receiver method args (w.emit (.compositive receiver method args))

/-- The call `e.Destroy()`: the call is recorded, then its body runs. -/
def Destroy (env : Env) (e : Ptr) (w : World) : Outcome :=
  env.destroyBody e (w.emit (.destroy e))

/-- The call `spaceManager.putSpace(space)`, which files the space under its
ID. -/
def putSpace (env : Env) (space : Ptr) (w : World) : Outcome :=
  let w1 := w.emit (.putSpace space)
  match env.putSpace w1.spaceManager (w1.entity space).ID space with
  | some table => .ok { w1 with spaceManager := table }
  | none => .panic w1

/-- Modelled from the spec: `spaceManager.delSpace(id)` is not in Space.go.
`unregister(id)` removes an entry and is safe when the entry is absent. -/
def delSpace (id : EntityID) (w : World) : World :=
  let w1 := w.emit (.delSpace id)
  { w1 with spaceManager := fun k => if k = id then none else w1.spaceManager k }

/-- The global lookup `GetEntity(entityID)` of the entity manager. -/
def GetEntity (w : World) (entityID : EntityID) : Option Ptr :=
  w.entityManager entityID

/-- A loop `for e := range space.entities { body(e) }` over the keys listed,
in the order the runtime fixed when the loop started. A key removed from the
map before it is reached is not produced, a key added while the loop runs is
not produced either (Go leaves that open), and a panic in the body ends the
loop. -/
def rangeEntities (space : Ptr) (body : Ptr → World → Outcome) :
    List Ptr → World → Outcome
  | [], w => .ok w
  | e :: rest, w =>
    if e ∈ (w.space space).entities then
      (body e w).andThen (rangeEntities space body rest)
    else
      rangeEntities space body rest w

/-- `Space.IsNil`: the space is the nil space when its Kind is 0. -/
def Space.IsNil (w : World) (space : Ptr) : Bool :=
  decide ((w.space space).Kind = 0)

/-- `Space.OnInit`. -/
def Space.OnInit (env : Env) (space : Ptr) (w : World) : Outcome :=
  let w1 := w.modSpace space (fun s => { s with entities := ∅ })
  callCompositiveMethod env space .OnSpaceInit [] w1

/-- `Space.onSpaceCreated`. -/
def Space.onSpaceCreated (env : Env) (space : Ptr) (w : World) : Outcome :=
  let w1 := w.modSpace space (fun s => { s with Kind := (w.entity space).kindAttr })
  (putSpace env space w1).andThen fun w2 =>
    if (w2.space space).Kind = 0 then
      if w2.nilSpace ≠ none then
        .panic w2
      else
        let w3 := { w2 with nilSpace := some space }
        .ok (w3.modEntity space (fun e => { e with Space := w3.nilSpace }))
    else
      .ok w2

/-- `Space.OnCreated`. -/
def Space.OnCreated (env : Env) (space : Ptr) (w : World) : Outcome :=
  (Space.onSpaceCreated env space w).andThen fun w1 =>
    if Space.IsNil w1 space then
      .ok w1
    else
      callCompositiveMethod env space .OnSpaceCreated [] w1

/-- `Space.OnRestored`. -/
def Space.OnRestored (env : Env) (space : Ptr) (w : World) : Outcome :=
  Space.onSpaceCreated env space w

/-- `Space.UseTowerAOI`. -/
def Space.UseTowerAOI (space : Ptr) (minX maxX minY maxY towerRange : Coord)
    (w : World) : Outcome :=
  if (w.space space).aoiMgr ≠ none ∨ (w.space space).entities.card > 0 then
    .panic w
  else
    .ok (w.modSpace space (fun s =>
      { s with aoiMgr := some ⟨minX, maxX, minY, maxY, towerRange⟩ }))

/-- `Space.OnDestroy`. -/
def Space.OnDestroy (env : Env) (space : Ptr) (w : World) : Outcome :=
  (callCompositiveMethod env space .OnSpaceDestroy [] w).andThen fun w1 =>
    (rangeEntities space (Destroy env)
        (env.rangeOrder (w1.space space).entities) w1).andThen fun w2 =>
      .ok (delSpace (w2.entity space).ID w2)

/-- `Space.enter`. -/
def Space.enter (env : Env) (space entity : Ptr) (pos : Vector3) (isRestore : Bool)
    (w : World) : Outcome :=
  if (w.entity entity).Space ≠ w.nilSpace then
    .panic w
  else if Space.IsNil w space || !(w.entity entity).IsUseAOI then
    .ok w
  else
    let w1 := w.modEntity entity (fun e => { e with Space := some space })
    let w2 := w1.modSpace space (fun s => { s with entities := insert entity s.entities })
    let w3 := w2.modEntity entity (fun e =>
      { e with syncInfoFlag :=
          e.syncInfoFlag ||| (env.sifSyncOwnClient ||| env.sifSyncNeighborClients) })
    match (w3.space space).aoiMgr with
    | none => .ok w3
    | some _ =>
      if !isRestore then
        let w4 := w3.emit (.sendCreateEntity (w3.entity entity).client space false)
        let w5 := w4.emit (.aoiEnter space entity pos.X pos.Z (w4.entity entity).client)
        RunPanicless (fun v =>
          (callCompositiveMethod env space .OnEntityEnterSpace [entity] v).andThen
            (callCompositiveMethod env entity .OnEnterSpace [])) w5
      else
        let client := (w3.entity entity).client
        let w4 := w3.modEntity entity (fun e => { e with client := none })
        let w5 := w4.emit (.aoiEnter space entity pos.X pos.Z (w4.entity entity).client)
        .ok (w5.modEntity entity (fun e => { e with client := client }))

/-- `Space.leave`. -/
def Space.leave (env : Env) (space entity : Ptr) (w : World) : Outcome :=
  if (w.entity entity).Space ≠ some space then
    .panic w
  else
    match (w.space space).aoiMgr with
    | none => .ok w
    | some _ =>
      let w1 := w.emit (.aoiLeave space entity)
      let w2 := w1.emit (.sendDestroyEntity (w1.entity entity).client space)
      let w3 := w2.modSpace space (fun s => { s with entities := s.entities.erase entity })
      let w4 := w3.modEntity entity (fun e => { e with Space := w3.nilSpace })
      (callCompositiveMethod env space .OnEntityLeaveSpace [entity] w4).andThen
        (callCompositiveMethod env entity .OnLeaveSpace [space])

/-- `Space.move`. -/
def Space.move (space entity : Ptr) (newPos : Vector3) (w : World) : Outcome :=
  match (w.space space).aoiMgr with
  | none => .ok w
  | some _ =>
    let w1 := w.modEntity entity (fun e => { e with Position := newPos })
    .ok (w1.emit (.aoiMoved space entity newPos.X newPos.Z))

/-- `Space.GetEntityCount`. -/
def Space.GetEntityCount (w : World) (space : Ptr) : Nat :=
  (w.space space).entities.card

/-- `Space.ForEachEntity`. -/
def Space.ForEachEntity (env : Env) (space : Ptr) (f : Ptr → World → Outcome)
    (w : World) : Outcome :=
  rangeEntities space f (env.rangeOrder (w.space space).entities) w

/-- `Space.GetEntity`. -/
def Space.GetEntity (w : World) (space : Ptr) (entityID : EntityID) : Option Ptr :=
  match Goworld.GetEntity w entityID with
  | none => none
  | some entity =>
    if entity ∈ (w.space space).entities then some entity else none

/-! ## Assumptions on the code outside Space.go, and concrete states -/

/-- The override bodies leave the part `proj` of the state as they found it,
whether they return or panic. -/
def Env.overridesKeep {α : Type} (env : Env) (proj : World → α) : Prop :=
  ∀ receiver method args w, proj (env.override receiver method args w).world = proj w

/-- A call into the AOI manager (`Enter`, `Leave` or `Moved`). -/
def Event.isAOICall : Event → Bool
  | .aoiEnter _ _ _ _ _ => true
  | .aoiLeave _ _ => true
  | .aoiMoved _ _ _ _ => true
  | _ => false

/-- A message to a client (`sendCreateEntity` or `sendDestroyEntity`). -/
def Event.isClientMessage : Event → Bool
  | .sendCreateEntity _ _ _ => true
  | .sendDestroyEntity _ _ => true
  | _ => false

/-- A step of the destruction of a space: the dispatch of `OnSpaceDestroy`, a
call of `Destroy`, or a call of `delSpace`. -/
def Event.isDestroyStep : Event → Bool
  | .compositive _ .OnSpaceDestroy _ => true
  | .destroy _ => true
  | .delSpace _ => true
  | _ => false

/-- The members of a set by increasing address: one of the orders in which
the runtime may walk it. -/
def ascending (S : Finset Ptr) : List Ptr :=
  Quot.liftOn S.val (fun l => l.insertionSort (· ≤ ·)) (fun a b h =>
    List.eq_of_perm_of_sorted
      ((List.perm_insertionSort (· ≤ ·) a).trans
        (h.trans (List.perm_insertionSort (· ≤ ·) b).symm))
      (List.sorted_insertionSort (· ≤ ·) a) (List.sorted_insertionSort (· ≤ ·) b))

/-- An environment whose overrides and `Destroy` body do nothing, as the
default bodies in Space.go; `putSpace` stores the space under its ID, and a
`range` loop walks a set by increasing address. -/
def quietEnv : Env where
  override := fun _ _ _ w => .ok w
  destroyBody := fun _ w => .ok w
  putSpace := fun table id space => some (fun k => if k = id then some space else table k)
  rangeOrder := ascending
  sifSyncOwnClient := 1
  sifSyncNeighborClients := 2

/-- The position (0, 0, 0). -/
def origin : Vector3 := ⟨⟨0⟩, ⟨0⟩, ⟨0⟩⟩

/-- The position (50, 0, 0); 0x42480000 is the float32 50. -/
def fiftyEast : Vector3 := ⟨⟨0x42480000⟩, ⟨0⟩, ⟨0⟩⟩

/-- The tower AOI manager over (-1000, 1000, -1000, 1000) with range 100. -/
def demoAOI : AOIManager :=
  ⟨⟨0xC47A0000⟩, ⟨0x447A0000⟩, ⟨0xC47A0000⟩, ⟨0x447A0000⟩, ⟨0x42C80000⟩⟩

/-- An entity record resting in the nil space at address 0. -/
def demoEntity (id : EntityID) (typeName : String) (useAOI : Bool)
    (client : Option Ptr) (kind : Int) : Entity :=
  { ID := id, TypeName := typeName, Position := origin, Space := some 0, client := client,
    syncInfoFlag := 0, IsUseAOI := useAOI, kindAttr := kind }

/-- A small process state: the nil space at address 0, a space of kind 1
without AOI manager at address 1, a space of kind 1 with an AOI manager at
address 2, an avatar that uses AOI and has a client at address 10, a monster
that uses AOI and has no client at address 12, and at every other address
(11 in the examples) an entity that does not use AOI. Every entity rests in
the nil space and every entity set is empty. -/
def demoWorld : World where
  entity := fun p =>
    if p = 0 then demoEntity "nil" "__space__" false none 0
    else if p = 1 then demoEntity "A" "__space__" false none 1
    else if p = 2 then demoEntity "B" "__space__" false none 1
    else if p = 10 then demoEntity "X" "Avatar" true (some 100) 0
    else if p = 12 then demoEntity "Z" "Monster" true none 0
    else demoEntity "Y" "Monster" false none 0
  space := fun p =>
    if p = 1 then ⟨∅, 1, none⟩
    else if p = 2 then ⟨∅, 1, some demoAOI⟩
    else ⟨∅, 0, none⟩
  nilSpace := some 0
  spaceManager := fun k =>
    if k = "nil" then some 0 else if k = "A" then some 1 else if k = "B" then some 2 else none
  entityManager := fun k =>
    if k = "X" then some 10 else if k = "Y" then some 11 else if k = "Z" then some 12
    else none
  trace := []

/-- An environment in which `Destroy` makes the entity leave the space it is
in, with overrides that do nothing. -/
def leavingEnv : Env :=
  { quietEnv with
    destroyBody := fun e w =>
      match (w.entity e).Space with
      | some space => Space.leave quietEnv space e w
      | none => .ok w }

/-- The demo state after the avatar at address 10 and the monster at address
12 have entered the space with an AOI manager at address 2. -/
def crowdedWorld : World :=
  (Space.enter quietEnv 2 12 origin false
    (Space.enter quietEnv 2 10 origin false demoWorld).world).world

/-- An environment whose overrides of `OnEntityEnterSpace` and
`OnEntityLeaveSpace` raise a failure as soon as they are called; everything
else is as in `quietEnv`. -/
def failingEnv : Env :=
  { quietEnv with
    override := fun _ method _ w =>
      match method with
      | .OnEntityEnterSpace => .panic w
      | .OnEntityLeaveSpace => .panic w
      | _ => .ok w }

/-- The demo state in a process that has just started: no nil space is
installed yet and the space manager is empty. -/
def freshWorld : World :=
  { demoWorld with nilSpace := none, spaceManager := fun _ => none }

/-- The traversal as the specification words it, to be compared with
`Space.ForEachEntity`: the visitor is called once on every key of a snapshot of
the entity set taken when the call began, whatever the visitor does to the set
in between; a panic of the visitor ends the traversal. -/
def forEachSnapshot (f : Ptr → World → Outcome) : List Ptr → World → Outcome
  | [], w => .ok w
  | e :: rest, w => (f e w).andThen (forEachSnapshot f rest)

/-- A visitor that marks the entity it visits by setting its TypeName to
"visited" and makes the monster at address 12 leave the space at address 2 if
it is still there. -/
def evictingVisitor (x : Ptr) (w : World) : Outcome :=
  let w1 := w.modEntity x (fun r => { r with TypeName := "visited" })
  if (w1.entity 12).Space = some 2 then Space.leave quietEnv 2 12 w1 else .ok w1

/-- A visitor that makes the entity it visits leave the space at address 2. -/
def leavingVisitor (x : Ptr) (w : World) : Outcome :=
  Space.leave quietEnv 2 x w

/-- A starting state: every entity set is empty and the Space of every entity
is the nil space; the nil space, when one is installed, is a space of Kind 0,
as `onSpaceCreated` installs it. -/
def Initial (w : World) : Prop :=
  (∀ s, (w.space s).entities = ∅) ∧ (∀ e, (w.entity e).Space = w.nilSpace) ∧
  (∀ n, w.nilSpace = some n → (w.space n).Kind = 0)

/-- The states reached from a starting state by calls of `enter`, `leave` and
`move`, on any spaces and entities, that return normally. -/
inductive Reachable (env : Env) : World → Prop
  | start (w : World) (h : Initial w) : Reachable env w
  | enter (w w1 : World) (s e : Ptr) (pos : Vector3) (isRestore : Bool)
      (h : Reachable env w)
      (hstep : Space.enter env s e pos isRestore w = Outcome.ok w1) : Reachable env w1
  | leave (w w1 : World) (s e : Ptr) (h : Reachable env w)
      (hstep : Space.leave env s e w = Outcome.ok w1) : Reachable env w1
  | move (w w1 : World) (s e : Ptr) (newPos : Vector3) (h : Reachable env w)
      (hstep : Space.move s e newPos w = Outcome.ok w1) : Reachable env w1

/-! ## Theorems -/

/-! ### State access and sequencing -/

@[simp]
theorem World.modEntity_entity (w : World) (p q : Ptr) (f : Entity → Entity) :
    (w.modEntity p f).entity q = if q = p then f (w.entity q) else w.entity q := rfl
@[simp]
theorem World.modEntity_space (w : World) (p : Ptr) (f : Entity → Entity) :
    (w.modEntity p f).space = w.space := rfl
@[simp]
theorem World.modEntity_nilSpace (w : World) (p : Ptr) (f : Entity → Entity) :
    (w.modEntity p f).nilSpace = w.nilSpace := rfl
@[simp]
theorem World.modEntity_trace (w : World) (p : Ptr) (f : Entity → Entity) :
    (w.modEntity p f).trace = w.trace := rfl
@[simp]
theorem World.modEntity_spaceManager (w : World) (p : Ptr) (f : Entity → Entity) :
    (w.modEntity p f).spaceManager = w.spaceManager := rfl
@[simp]
theorem World.modEntity_entityManager (w : World) (p : Ptr) (f : Entity → Entity) :
    (w.modEntity p f).entityManager = w.entityManager := rfl
@[simp]
theorem World.modSpace_space (w : World) (p q : Ptr) (f : Space → Space) :
    (w.modSpace p f).space q = if q = p then f (w.space q) else w.space q := rfl
@[simp]
theorem World.modSpace_entity (w : World) (p : Ptr) (f : Space → Space) :
    (w.modSpace p f).entity = w.entity := rfl
@[simp]
theorem World.modSpace_nilSpace (w : World) (p : Ptr) (f : Space → Space) :
    (w.modSpace p f).nilSpace = w.nilSpace := rfl
@[simp]
theorem World.modSpace_trace (w : World) (p : Ptr) (f : Space → Space) :
    (w.modSpace p f).trace = w.trace := rfl
@[simp]
theorem World.modSpace_spaceManager (w : World) (p : Ptr) (f : Space → Space) :
    (w.modSpace p f).spaceManager = w.spaceManager := rfl
@[simp]
theorem World.modSpace_entityManager (w : World) (p : Ptr) (f : Space → Space) :
    (w.modSpace p f).entityManager = w.entityManager := rfl
@[simp]
theorem World.emit_entity (w : World) (ev : Event) : (w.emit ev).entity = w.entity := rfl
@[simp]
theorem World.emit_space (w : World) (ev : Event) : (w.emit ev).space = w.space := rfl
@[simp]
theorem World.emit_nilSpace (w : World) (ev : Event) :
    (w.emit ev).nilSpace = w.nilSpace := rfl
@[simp]
theorem World.emit_trace (w : World) (ev : Event) :
    (w.emit ev).trace = w.trace ++ [ev] := rfl
@[simp]
theorem World.emit_spaceManager (w : World) (ev : Event) :
    (w.emit ev).spaceManager = w.spaceManager := rfl
@[simp]
theorem World.emit_entityManager (w : World) (ev : Event) :
    (w.emit ev).entityManager = w.entityManager := rfl
@[simp]
theorem Outcome.world_ok (w : World) : (Outcome.ok w).world = w := rfl
@[simp]
theorem Outcome.world_panic (w : World) : (Outcome.panic w).world = w := rfl
@[simp]
theorem Outcome.panicked_ok (w : World) : (Outcome.ok w).panicked = false := rfl
@[simp]
theorem Outcome.panicked_panic (w : World) : (Outcome.panic w).panicked = true := rfl

theorem Outcome.eq_ok_of_not_panicked (r : Outcome) (h : r.panicked = false) :
    r = .ok r.world := by
  cases r with
  | ok v => rfl
  | panic v => simp at h

theorem andThen_world_keep {α : Type} (proj : World → α) (f g : World → Outcome)
    (hf : ∀ v, proj (f v).world = proj v) (hg : ∀ v, proj (g v).world = proj v) (w : World) :
    proj ((f w).andThen g).world = proj w := by
  have h1 := hf w
  cases hfw : f w with
  | ok v =>
    rw [hfw] at h1
    show proj (g v).world = proj w
    rw [hg v]; exact h1
  | panic v => rw [hfw] at h1; exact h1

theorem callCompositiveMethod_keep {α : Type} (env : Env) (proj : World → α)
    (hk : env.overridesKeep proj)
    (hemit : ∀ v r m a, proj (v.emit (Event.compositive r m a)) = proj v)
    (receiver : Ptr) (method : Method) (args : List Ptr) (w : World) :
    proj (callCompositiveMethod env receiver method args w).world = proj w := by
  unfold callCompositiveMethod
  rw [hk, hemit]

theorem two_hooks_keep {α : Type} (env : Env) (proj : World → α)
    (hk : env.overridesKeep proj)
    (hemit : ∀ v r m a, proj (v.emit (Event.compositive r m a)) = proj v)
    (a b : Ptr) (m1 m2 : Method) (l1 l2 : List Ptr) (v : World) :
    proj ((callCompositiveMethod env a m1 l1 v).andThen
        (callCompositiveMethod env b m2 l2)).world = proj v :=
  andThen_world_keep proj _ _ (callCompositiveMethod_keep env proj hk hemit a m1 l1)
      (callCompositiveMethod_keep env proj hk hemit b m2 l2) v

/-! ### C1: enter places the entity, leave removes it -/

/-- C1, counterexample: an entity that does not use AOI (address 11, resting in
the nil space) enters the space at address 2; `enter` returns normally, yet the
entity's Space is not that space and the entity set does not contain it. The
same holds for the avatar at address 10 entering the nil space at address 0:
the nil space does not contain it afterwards. -/
theorem enter_success_without_placement :
    (Space.enter quietEnv 2 11 origin false demoWorld).panicked = false ∧
    ((Space.enter quietEnv 2 11 origin false demoWorld).world.entity 11).Space ≠ some 2 ∧
    11 ∉ ((Space.enter quietEnv 2 11 origin false demoWorld).world.space 2).entities ∧
    (Space.enter quietEnv 0 10 origin false demoWorld).panicked = false ∧
    10 ∉ ((Space.enter quietEnv 0 10 origin false demoWorld).world.space 0).entities := by
  decide

/-- C1, amended: for a space `s` that is not the nil space (Kind ≠ 0) and an
entity `e` that uses AOI and rests in the nil space, `s.enter(e, pos, false)`
returns normally with `e.Space == s` and `e` in the entity set of `s`; and when
`s` has an AOI manager, after the subsequent `s.leave(e)` the Space of `e` is
the nil space again and the entity set of `s` does not contain `e`. The
overrides are assumed to leave the Space of `e`, the record of `s` and
`nilSpace` alone. -/
theorem enter_places_then_leave_removes (env : Env) (w : World) (s e : Ptr) (pos : Vector3)
    (hnull : (w.entity e).Space = w.nilSpace)
    (hkind : (w.space s).Kind ≠ 0)
    (haoi : (w.entity e).IsUseAOI = true)
    (hSpace : env.overridesKeep (fun v => (v.entity e).Space))
    (hset : env.overridesKeep (fun v => v.space s))
    (hnil : env.overridesKeep World.nilSpace) :
    ∃ w1, Space.enter env s e pos false w = .ok w1 ∧
      (w1.entity e).Space = some s ∧ e ∈ (w1.space s).entities ∧
      ((w.space s).aoiMgr ≠ none →
        ((Space.leave env s e w1).world.entity e).Space = w.nilSpace ∧
        (Space.leave env s e w1).world.nilSpace = w.nilSpace ∧
        e ∉ ((Space.leave env s e w1).world.space s).entities) := by
  cases hm : (w.space s).aoiMgr with
  | none =>
    refine ⟨(Space.enter env s e pos false w).world, ?_, ?_, ?_, ?_⟩
    · apply Outcome.eq_ok_of_not_panicked
      simp [Space.enter, hnull, Space.IsNil, hkind, haoi, hm]
    · simp [Space.enter, hnull, Space.IsNil, hkind, haoi, hm]
    · simp [Space.enter, hnull, Space.IsNil, hkind, haoi, hm]
    · simp
  | some m =>
    have hent : Space.enter env s e pos false w = .ok (Space.enter env s e pos false w).world := by
      apply Outcome.eq_ok_of_not_panicked
      simp [Space.enter, hnull, Space.IsNil, hkind, haoi, hm, RunPanicless]
    have h1 : ((Space.enter env s e pos false w).world.entity e).Space = some s := by
      simp only [Space.enter, hnull, Space.IsNil, hkind, haoi, hm, RunPanicless, ne_eq,
        not_true_eq_false, ite_false, decide_False, Bool.not_true, Bool.or_false,
        Bool.false_eq_true, World.modSpace_space, World.modEntity_space, ite_true,
        Outcome.world_ok]
      refine (two_hooks_keep env (fun v => (v.entity e).Space) hSpace (fun _ _ _ _ => rfl)
        _ _ _ _ _ _ _).trans ?_
      simp
    have h2 : (Space.enter env s e pos false w).world.space s =
        { w.space s with entities := insert e (w.space s).entities } := by
      simp only [Space.enter, hnull, Space.IsNil, hkind, haoi, hm, RunPanicless, ne_eq,
        not_true_eq_false, ite_false, decide_False, Bool.not_true, Bool.or_false,
        Bool.false_eq_true, World.modSpace_space, World.modEntity_space, ite_true,
        Outcome.world_ok]
      refine (two_hooks_keep env (fun v => v.space s) hset (fun _ _ _ _ => rfl)
        _ _ _ _ _ _ _).trans ?_
      simp [hm]
    have h3 : (Space.enter env s e pos false w).world.nilSpace = w.nilSpace := by
      simp only [Space.enter, hnull, Space.IsNil, hkind, haoi, hm, RunPanicless, ne_eq,
        not_true_eq_false, ite_false, decide_False, Bool.not_true, Bool.or_false,
        Bool.false_eq_true, World.modSpace_space, World.modEntity_space, ite_true,
        Outcome.world_ok]
      refine (two_hooks_keep env World.nilSpace hnil (fun _ _ _ _ => rfl)
        _ _ _ _ _ _ _).trans ?_
      simp
    refine ⟨(Space.enter env s e pos false w).world, hent, h1, ?_, ?_⟩
    · rw [h2]; simp
    · intro _
      generalize (Space.enter env s e pos false w).world = w1 at h1 h2 h3
      have hm1 : (w1.space s).aoiMgr = some m := by rw [h2]; exact hm
      refine ⟨?_, ?_, ?_⟩
      · simp only [Space.leave, h1, hm1, ne_eq, not_true_eq_false, ite_false]
        refine (two_hooks_keep env (fun v => (v.entity e).Space) hSpace (fun _ _ _ _ => rfl)
          _ _ _ _ _ _ _).trans ?_
        simp [h3]
      · simp only [Space.leave, h1, hm1, ne_eq, not_true_eq_false, ite_false]
        refine (two_hooks_keep env World.nilSpace hnil (fun _ _ _ _ => rfl)
          _ _ _ _ _ _ _).trans ?_
        simp [h3]
      · simp only [Space.leave, h1, hm1, ne_eq, not_true_eq_false, ite_false]
        have := two_hooks_keep env (fun v => v.space s) hset (fun _ _ _ _ => rfl)
          s e .OnEntityLeaveSpace .OnLeaveSpace [e] [s]
        simp only at this
        rw [this]
        simp

/-- C1, witness: the avatar at address 10 enters the space with an AOI manager
at address 2 and leaves it again. -/
theorem enter_places_then_leave_removes_witness :
    (demoWorld.entity 10).Space = demoWorld.nilSpace ∧ (demoWorld.space 2).Kind ≠ 0 ∧
    ∃ w1, Space.enter quietEnv 2 10 origin false demoWorld = .ok w1 ∧
      (w1.entity 10).Space = some 2 ∧ 10 ∈ (w1.space 2).entities ∧
      ((demoWorld.space 2).aoiMgr ≠ none →
        ((Space.leave quietEnv 2 10 w1).world.entity 10).Space = demoWorld.nilSpace ∧
        (Space.leave quietEnv 2 10 w1).world.nilSpace = demoWorld.nilSpace ∧
        10 ∉ ((Space.leave quietEnv 2 10 w1).world.space 2).entities) :=
  ⟨by decide, by decide,
    enter_places_then_leave_removes quietEnv demoWorld 2 10 origin (by decide) (by decide) rfl
      (fun _ _ _ _ => rfl) (fun _ _ _ _ => rfl) (fun _ _ _ _ => rfl)⟩

/-! ### C2: entity count across an enter/leave pair -/

/-- C2, evaluation at the failing input: the space at address 1 has no AOI
manager and no entity; the avatar at address 10 enters it and leaves it, both
calls return normally, and the entity count of the space is 1 afterwards, not 0
as before the pair. -/
theorem count_after_enter_leave_without_aoi :
    Space.GetEntityCount demoWorld 1 = 0 ∧
    (Space.enter quietEnv 1 10 origin false demoWorld).panicked = false ∧
    (Space.leave quietEnv 1 10
      (Space.enter quietEnv 1 10 origin false demoWorld).world).panicked = false ∧
    Space.GetEntityCount (Space.leave quietEnv 1 10
      (Space.enter quietEnv 1 10 origin false demoWorld).world).world 1 = 1 := by
  decide

/-! ### C3: move -/

/-- C3, counterexample: the space at address 1 has no AOI manager; after
`move` of the avatar at address 10 to (50, 0, 0) its stored Position is still
the origin. -/
theorem move_without_aoi_keeps_position :
    (demoWorld.space 1).aoiMgr = none ∧
    ((Space.move 1 10 fiftyEast demoWorld).world.entity 10).Position ≠ fiftyEast ∧
    ((Space.move 1 10 fiftyEast demoWorld).world.entity 10).Position = origin := by
  decide

/-- C3, amended: on a space with an AOI manager, `s.move(e, newPos)` writes
`newPos` to the stored Position of `e` and makes exactly one recorded call,
`Moved(e, newPos.X, newPos.Z)` on the manager. Nothing else is written: the
other fields of `e`, the other entities, the space records, `nilSpace`, the
space manager and the entity manager are as before. On a space without AOI
manager `move` returns the state it was given: the Position is not updated and
no call is made. So the manager receives `Moved` exactly when there is one,
and the Position is updated only then. The statement is about the state the
call ends in and the calls it makes, not about whether `Moved` itself
succeeds inside the AOI library. -/
theorem move_updates_position_iff_aoi (w : World) (s e : Ptr) (newPos : Vector3) :
    ((w.space s).aoiMgr ≠ none →
      ((Space.move s e newPos w).world.entity e).Position = newPos ∧
      (Space.move s e newPos w).world.entity e = { w.entity e with Position := newPos } ∧
      (Space.move s e newPos w).world.trace =
        w.trace ++ [Event.aoiMoved s e newPos.X newPos.Z] ∧
      (∀ x, x ≠ e → (Space.move s e newPos w).world.entity x = w.entity x) ∧
      (Space.move s e newPos w).world.space = w.space ∧
      (Space.move s e newPos w).world.nilSpace = w.nilSpace ∧
      (Space.move s e newPos w).world.spaceManager = w.spaceManager ∧
      (Space.move s e newPos w).world.entityManager = w.entityManager) ∧
    ((w.space s).aoiMgr = none → Space.move s e newPos w = Outcome.ok w) := by
  cases hm : (w.space s).aoiMgr with
  | none => simp [Space.move, hm]
  | some m =>
    simp only [Space.move, hm]
    refine ⟨fun _ => ⟨by simp, by simp, by simp, ?_, by simp, by simp, by simp, by simp⟩,
      by simp⟩
    intro x hx
    simp [hx]

/-- C3, witness: the avatar at address 10 has entered the space with an AOI
manager at address 2 and moves there to (50, 0, 0); in the space without
manager at address 1 the same `move` changes nothing. -/
theorem move_updates_position_iff_aoi_witness :
    (crowdedWorld.space 2).aoiMgr ≠ none ∧ 10 ∈ (crowdedWorld.space 2).entities ∧
    ((Space.move 2 10 fiftyEast crowdedWorld).world.entity 10).Position = fiftyEast ∧
    (Space.move 2 10 fiftyEast crowdedWorld).world.trace =
      crowdedWorld.trace ++ [Event.aoiMoved 2 10 fiftyEast.X fiftyEast.Z] ∧
    (demoWorld.space 1).aoiMgr = none ∧
    Space.move 1 10 fiftyEast demoWorld = Outcome.ok demoWorld :=
  ⟨by decide, by decide,
    ((move_updates_position_iff_aoi crowdedWorld 2 10 fiftyEast).1 (by decide)).1,
    ((move_updates_position_iff_aoi crowdedWorld 2 10 fiftyEast).1 (by decide)).2.2.1,
    by decide,
    (move_updates_position_iff_aoi demoWorld 1 10 fiftyEast).2 (by decide)⟩

/-! ### C4: UseTowerAOI -/

/-- C4, counterexample: the entity at address 11 does not use AOI; its `enter`
into the space at address 1 (no AOI manager) succeeds, and `UseTowerAOI` called
afterwards returns normally and installs a manager. -/
theorem UseTowerAOI_after_enter_succeeds :
    (Space.enter quietEnv 1 11 origin false demoWorld).panicked = false ∧
    (Space.UseTowerAOI 1 demoAOI.minX demoAOI.maxX demoAOI.minY demoAOI.maxY
      demoAOI.towerRange
      (Space.enter quietEnv 1 11 origin false demoWorld).world).panicked = false ∧
    (((Space.enter quietEnv 1 11 origin false demoWorld).world).space 1).aoiMgr = none ∧
    ((Space.UseTowerAOI 1 demoAOI.minX demoAOI.maxX demoAOI.minY demoAOI.maxY
      demoAOI.towerRange
      (Space.enter quietEnv 1 11 origin false demoWorld).world).world.space 1).aoiMgr
      = some demoAOI := by
  decide

/-- C4, amended: `UseTowerAOI` called on a space that already has an AOI
manager, or whose entity set is not empty, panics and leaves the whole state,
in particular the manager and the entity set of the space, as it was. -/
theorem UseTowerAOI_refused (w : World) (s : Ptr) (minX maxX minY maxY towerRange : Coord)
    (h : (w.space s).aoiMgr ≠ none ∨ (w.space s).entities.Nonempty) :
    Space.UseTowerAOI s minX maxX minY maxY towerRange w = Outcome.panic w := by
  unfold Space.UseTowerAOI
  rw [if_pos]
  rcases h with h | h
  · exact Or.inl h
  · exact Or.inr (Finset.card_pos.mpr h)

/-- C4, witness: after the avatar at address 10 has entered the space at
address 1, which has no AOI manager, the entity set of that space is not empty
and `UseTowerAOI` panics without changing the state. -/
theorem UseTowerAOI_refused_witness :
    ((Space.enter quietEnv 1 10 origin false demoWorld).world.space 1).entities.Nonempty ∧
    Space.UseTowerAOI 1 demoAOI.minX demoAOI.maxX demoAOI.minY demoAOI.maxY
      demoAOI.towerRange (Space.enter quietEnv 1 10 origin false demoWorld).world =
    Outcome.panic (Space.enter quietEnv 1 10 origin false demoWorld).world :=
  ⟨⟨10, by decide⟩,
    UseTowerAOI_refused _ 1 _ _ _ _ _ (Or.inr ⟨10, by decide⟩)⟩

/-! ### C5: the nil-space singleton -/

theorem Outcome.andThen_of_panicked (r : Outcome) (k : World → Outcome)
    (h : r.panicked = true) : r.andThen k = r := by
  cases r with
  | ok v => simp at h
  | panic v => rfl

theorem onSpaceCreated_second_nil (env : Env) (w : World) (n s : Ptr)
    (hn : w.nilSpace = some n) (hk : (w.space n).Kind = 0)
    (hattr : (w.entity s).kindAttr = 0) :
    (Space.onSpaceCreated env s w).panicked = true ∧
      (Space.onSpaceCreated env s w).world.nilSpace = some n ∧
      (Space.onSpaceCreated env s w).world.space n = w.space n ∧
      (Space.onSpaceCreated env s w).world.entity = w.entity := by
  have hrec : (if n = s then { w.space n with Kind := (0 : Int) } else w.space n) = w.space n := by
    split
    · rw [← hk]
    · rfl
  unfold Space.onSpaceCreated putSpace
  simp only [World.emit_spaceManager, World.modSpace_spaceManager, World.emit_entity,
    World.modSpace_entity, hattr]
  cases env.putSpace w.spaceManager (w.entity s).ID s with
  | none =>
    simp only [Outcome.andThen, Outcome.panicked_panic, Outcome.world_panic,
      World.emit_nilSpace, World.modSpace_nilSpace, World.emit_space, World.modSpace_space,
      World.emit_entity, World.modSpace_entity, true_and]
    exact ⟨hn, hrec, trivial⟩
  | some table =>
    simp only [Outcome.andThen, World.emit_space, World.modSpace_space, ite_true,
      World.emit_nilSpace, World.modSpace_nilSpace, hn, ne_eq, reduceCtorEq, not_false_eq_true,
      Outcome.panicked_panic, Outcome.world_panic, true_and]
    exact ⟨hrec, trivial⟩

/-- C5: once `nilSpace` refers to a space `n` of Kind 0, `OnCreated` and
`OnRestored` on any space whose kind attribute is 0 panic, whatever
`putSpace` does; in the state reached `nilSpace` still refers to `n`, and the
space record of `n` (Kind, entity set, AOI manager) and its entity record
(among them its Space reference) are as before. -/
theorem second_nil_space_refused (env : Env) (w : World) (n s : Ptr)
    (hn : w.nilSpace = some n) (hk : (w.space n).Kind = 0)
    (hattr : (w.entity s).kindAttr = 0) :
    ((Space.OnCreated env s w).panicked = true ∧
      (Space.OnCreated env s w).world.nilSpace = some n ∧
      (Space.OnCreated env s w).world.space n = w.space n ∧
      (Space.OnCreated env s w).world.entity n = w.entity n) ∧
    ((Space.OnRestored env s w).panicked = true ∧
      (Space.OnRestored env s w).world.nilSpace = some n ∧
      (Space.OnRestored env s w).world.space n = w.space n ∧
      (Space.OnRestored env s w).world.entity n = w.entity n) := by
  obtain ⟨h0, h1, h2, h3⟩ := onSpaceCreated_second_nil env w n s hn hk hattr
  constructor
  · unfold Space.OnCreated
    rw [Outcome.andThen_of_panicked _ _ h0]
    exact ⟨h0, h1, h2, by rw [h3]⟩
  · unfold Space.OnRestored
    exact ⟨h0, h1, h2, by rw [h3]⟩

/-- C5, witness: in the demo state the nil space is at address 0; a second
space whose kind attribute is 0 (the record at address 11) is refused, and so
is a second `OnCreated` of the nil space itself. -/
theorem second_nil_space_refused_witness :
    demoWorld.nilSpace = some 0 ∧ (demoWorld.entity 11).kindAttr = 0 ∧
    ((Space.OnCreated quietEnv 11 demoWorld).panicked = true ∧
      (Space.OnCreated quietEnv 11 demoWorld).world.nilSpace = some 0 ∧
      (Space.OnCreated quietEnv 11 demoWorld).world.space 0 = demoWorld.space 0 ∧
      (Space.OnCreated quietEnv 11 demoWorld).world.entity 0 = demoWorld.entity 0) ∧
    (Space.OnRestored quietEnv 0 demoWorld).panicked = true :=
  ⟨rfl, rfl, (second_nil_space_refused quietEnv demoWorld 0 11 rfl rfl rfl).1,
    (second_nil_space_refused quietEnv demoWorld 0 0 rfl rfl rfl).2.1⟩

/-! ### C6: the precondition of enter -/

/-- C6: `s.enter(e, pos, isRestore)` panics if and only if the Space of `e` is
not the nil space; when it panics the state is the one before the call, so the
entity set of `s`, the fields of `e` and the trace of calls (AOI manager,
client, overrides) are unchanged. -/
theorem enter_panics_iff_not_in_nil_space (env : Env) (w : World) (s e : Ptr)
    (pos : Vector3) (isRestore : Bool) :
    ((Space.enter env s e pos isRestore w).panicked = true ↔
      (w.entity e).Space ≠ w.nilSpace) ∧
    ((w.entity e).Space ≠ w.nilSpace →
      Space.enter env s e pos isRestore w = Outcome.panic w) := by
  by_cases h : (w.entity e).Space = w.nilSpace
  · refine ⟨?_, fun h2 => absurd h h2⟩
    simp only [h, ne_eq, not_true_eq_false, iff_false, Bool.not_eq_true]
    unfold Space.enter
    rw [if_neg (by simp [h])]
    split
    · rfl
    · simp only
      split
      · rfl
      · split <;> rfl
  · have hp : Space.enter env s e pos isRestore w = Outcome.panic w := by
      unfold Space.enter
      rw [if_pos h]
    exact ⟨by simp [hp, h], fun _ => hp⟩

/-- C6, witness: an avatar already placed in the space at address 2 tries to
enter the space at address 1. -/
theorem enter_panics_iff_not_in_nil_space_witness :
    ((Space.enter quietEnv 2 10 origin false demoWorld).world.entity 10).Space ≠
      (Space.enter quietEnv 2 10 origin false demoWorld).world.nilSpace ∧
    Space.enter quietEnv 1 10 origin false
        (Space.enter quietEnv 2 10 origin false demoWorld).world =
      Outcome.panic (Space.enter quietEnv 2 10 origin false demoWorld).world :=
  ⟨by decide,
    (enter_panics_iff_not_in_nil_space quietEnv _ 1 10 origin false).2 (by decide)⟩

/-! ### C7: the precondition of leave -/

/-- C7, counterexample: the avatar at address 10 rests in the nil space at
address 0 and is not a member of the entity set of the nil space, yet
`leave` of the nil space returns normally for it. -/
theorem leave_nil_space_of_non_member_returns :
    10 ∉ (demoWorld.space 0).entities ∧
    (Space.leave quietEnv 0 10 demoWorld).panicked = false := by
  decide

/-- C7, amended: `s.leave(e)` panics whenever the Space reference of `e` is
not `s`, and the state is then the one before the call. The check reads the
reference and not the entity set: when the reference is `s` and `s` has no AOI
manager (as the nil space), `leave` returns normally without changing
anything, whether or not `e` is a member of the entity set of `s`. -/
theorem leave_panics_when_space_differs (env : Env) (w : World) (s e : Ptr) :
    ((w.entity e).Space ≠ some s → Space.leave env s e w = Outcome.panic w) ∧
    ((w.entity e).Space = some s → (w.space s).aoiMgr = none →
      Space.leave env s e w = Outcome.ok w) := by
  constructor
  · intro h
    unfold Space.leave
    rw [if_pos h]
  · intro h hm
    unfold Space.leave
    rw [if_neg (by simp [h])]
    simp [hm]

/-- C7, witness: the avatar at address 10 rests in the nil space, so `leave`
of the space at address 2 panics for it, and `leave` of the nil space
returns. -/
theorem leave_panics_when_space_differs_witness :
    (demoWorld.entity 10).Space ≠ some 2 ∧
    Space.leave quietEnv 2 10 demoWorld = Outcome.panic demoWorld ∧
    Space.leave quietEnv 0 10 demoWorld = Outcome.ok demoWorld :=
  ⟨by decide, (leave_panics_when_space_differs quietEnv demoWorld 2 10).1 (by decide),
    (leave_panics_when_space_differs quietEnv demoWorld 0 10).2 (by decide) (by decide)⟩

/-! ### C8: OnDestroy -/

theorem rangeEntities_destroy (env : Env) (s : Ptr)
    (hdestroy : ∀ e v, ∃ v1, env.destroyBody e v = Outcome.ok v1 ∧
      v1.trace.filter Event.isDestroyStep = v.trace.filter Event.isDestroyStep ∧
      ∀ x, x ≠ e → (x ∈ (v1.space s).entities ↔ x ∈ (v.space s).entities)) :
    ∀ (l : List Ptr) (v : World), l.Nodup → (∀ x ∈ l, x ∈ (v.space s).entities) →
      ∃ v2, rangeEntities s (Destroy env) l v = Outcome.ok v2 ∧
        v2.trace.filter Event.isDestroyStep =
          v.trace.filter Event.isDestroyStep ++ l.map Event.destroy := by
  intro l
  induction l with
  | nil =>
    intro v _ _
    exact ⟨v, rfl, by simp⟩
  | cons e rest ih =>
    intro v hnd hmem
    obtain ⟨v1, h1, ht, hkeep⟩ := hdestroy e (v.emit (Event.destroy e))
    have hrest : ∀ x ∈ rest, x ∈ (v1.space s).entities := by
      intro x hx
      have hne : x ≠ e := by
        intro hxe
        exact (List.nodup_cons.mp hnd).1 (hxe ▸ hx)
      exact (hkeep x hne).mpr (hmem x (List.mem_cons_of_mem e hx))
    obtain ⟨v2, h2, ht2⟩ := ih v1 (List.nodup_cons.mp hnd).2 hrest
    refine ⟨v2, ?_, ?_⟩
    · simp only [rangeEntities, hmem e (List.mem_cons_self e rest), ite_true, Destroy, h1,
        Outcome.andThen]
      exact h2
    · rw [ht2, ht]
      simp [Event.isDestroyStep]

/-- C8: `OnDestroy` of a space `s` returns normally and, of the steps of a
destruction (dispatch of `OnSpaceDestroy`, `Destroy` of an entity, `delSpace`),
makes exactly these, in this order: the dispatch of `OnSpaceDestroy` on `s`,
then one `Destroy` for every member of the entity set, in the order in which
the runtime walks the set, then `delSpace` with the ID of the space. The
number of `Destroy` calls is the number of members, and afterwards the space
manager has no entry under the ID. Assumed of the code outside Space.go: the
walk of the entity set lists each member once; the override returns without changing the entity
set; `Destroy` of an entity returns and removes from the set at most that
entity; and neither takes destruction steps of its own. -/
theorem OnDestroy_destroys_each_member_once (env : Env) (w : World) (s : Ptr)
    (horder : (env.rangeOrder (w.space s).entities).Nodup ∧
      ∀ x, x ∈ env.rangeOrder (w.space s).entities ↔ x ∈ (w.space s).entities)
    (hhook : ∀ v, ∃ v1, env.override s Method.OnSpaceDestroy [] v = Outcome.ok v1 ∧
      v1.trace.filter Event.isDestroyStep = v.trace.filter Event.isDestroyStep ∧
      (v1.space s).entities = (v.space s).entities)
    (hdestroy : ∀ e v, ∃ v1, env.destroyBody e v = Outcome.ok v1 ∧
      v1.trace.filter Event.isDestroyStep = v.trace.filter Event.isDestroyStep ∧
      ∀ x, x ≠ e → (x ∈ (v1.space s).entities ↔ x ∈ (v.space s).entities)) :
    ∃ w1, Space.OnDestroy env s w = Outcome.ok w1 ∧
      w1.trace.filter Event.isDestroyStep =
        w.trace.filter Event.isDestroyStep ++
          [Event.compositive s Method.OnSpaceDestroy []] ++
          (env.rangeOrder (w.space s).entities).map Event.destroy ++
          [Event.delSpace (w1.entity s).ID] ∧
      (env.rangeOrder (w.space s).entities).length = (w.space s).entities.card ∧
      w1.spaceManager (w1.entity s).ID = none := by
  obtain ⟨v1, h1, ht1, hs1⟩ := hhook (w.emit (Event.compositive s Method.OnSpaceDestroy []))
  have hs1 : (v1.space s).entities = (w.space s).entities := by simpa using hs1
  obtain ⟨hnd, hmem⟩ := horder
  obtain ⟨v2, h2, ht2⟩ := rangeEntities_destroy env s hdestroy
    (env.rangeOrder (w.space s).entities) v1 hnd (fun x hx => by rw [hs1]; exact (hmem x).mp hx)
  refine ⟨delSpace (v2.entity s).ID v2, ?_, ?_, ?_, ?_⟩
  · simp only [Space.OnDestroy, callCompositiveMethod, h1, Outcome.andThen, hs1, h2]
  · simp [delSpace, ht2, ht1, Event.isDestroyStep]
  · rw [← List.toFinset_card_of_nodup hnd]
    congr 1
    ext x
    simp [hmem x]
  · simp [delSpace]

theorem ascending_nodup_mem (S : Finset Ptr) :
    (ascending S).Nodup ∧ ∀ x, x ∈ ascending S ↔ x ∈ S := by
  obtain ⟨⟨l⟩, hl⟩ := S
  have hp : (l.insertionSort (· ≤ ·)).Perm l := List.perm_insertionSort (· ≤ ·) l
  exact ⟨hp.nodup_iff.mpr hl, fun x => hp.mem_iff⟩

theorem leavingEnv_destroyBody (s e : Ptr) (v : World) :
    ∃ v1, leavingEnv.destroyBody e v = Outcome.ok v1 ∧
      v1.trace.filter Event.isDestroyStep = v.trace.filter Event.isDestroyStep ∧
      ∀ x, x ≠ e → (x ∈ (v1.space s).entities ↔ x ∈ (v.space s).entities) := by
  cases hsp : (v.entity e).Space with
  | none => exact ⟨v, by simp [leavingEnv, hsp], rfl, fun _ _ => Iff.rfl⟩
  | some sp =>
    cases hm : (v.space sp).aoiMgr with
    | none => exact ⟨v, by simp [leavingEnv, hsp, Space.leave, hm], rfl, fun _ _ => Iff.rfl⟩
    | some m =>
      refine ⟨_, by simp [leavingEnv, hsp, Space.leave, hm, callCompositiveMethod, quietEnv,
        Outcome.andThen]; rfl, ?_, ?_⟩
      · simp [Event.isDestroyStep]
      · intro x hx
        by_cases hs : s = sp
        · simp [hs, hx]
        · simp [hs]

/-- C8, witness: the space at address 2 holds the avatar 10 and the monster
12; `Destroy` makes an entity leave its space, so each call removes the entity
from the set while the loop runs. -/
theorem OnDestroy_destroys_each_member_once_witness :
    (crowdedWorld.space 2).entities.card = 2 ∧
    leavingEnv.rangeOrder (crowdedWorld.space 2).entities = [10, 12] ∧
    ∃ w1, Space.OnDestroy leavingEnv 2 crowdedWorld = Outcome.ok w1 ∧
      w1.trace.filter Event.isDestroyStep =
        crowdedWorld.trace.filter Event.isDestroyStep ++
          [Event.compositive 2 Method.OnSpaceDestroy []] ++
          (leavingEnv.rangeOrder (crowdedWorld.space 2).entities).map Event.destroy ++
          [Event.delSpace (w1.entity 2).ID] ∧
      (leavingEnv.rangeOrder (crowdedWorld.space 2).entities).length =
        (crowdedWorld.space 2).entities.card ∧
      w1.spaceManager (w1.entity 2).ID = none :=
  ⟨by decide, by decide,
    OnDestroy_destroys_each_member_once leavingEnv crowdedWorld 2
      (ascending_nodup_mem (crowdedWorld.space 2).entities)
      (fun v => ⟨v, rfl, rfl, rfl⟩)
      (leavingEnv_destroyBody 2)⟩

/-! ### C9: GetEntity -/

/-- C9: `s.GetEntity(id)` returns the entity `e` if and only if the global
lookup resolves `id` to `e` and `e` is a member of the entity set of `s`; when
the global lookup does not resolve `id` the result is nil, whatever the entity
set of `s` holds. -/
theorem GetEntity_iff_resolved_and_member (w : World) (s : Ptr) (id : EntityID) (e : Ptr) :
    (Space.GetEntity w s id = some e ↔
      GetEntity w id = some e ∧ e ∈ (w.space s).entities) ∧
    (GetEntity w id = none → Space.GetEntity w s id = none) := by
  unfold Space.GetEntity
  cases h : GetEntity w id with
  | none => simp
  | some x =>
    by_cases hx : x ∈ (w.space s).entities
    · simp only [hx, ite_true, Option.some.injEq, reduceCtorEq, false_implies, and_true]
      constructor
      · intro hxe
        exact ⟨hxe, hxe ▸ hx⟩
      · exact fun h2 => h2.1
    · simp only [hx, ite_false, reduceCtorEq, Option.some.injEq, false_iff, not_and,
        false_implies, and_true]
      intro hxe
      exact hxe ▸ hx

/-- C9, witness: the monster at address 12 is a member of the space at
address 2; once the entity manager no longer resolves its ID "Z", `GetEntity`
of the space returns nil for that ID. -/
theorem GetEntity_iff_resolved_and_member_witness :
    12 ∈ (crowdedWorld.space 2).entities ∧ (crowdedWorld.entity 12).ID = "Z" ∧
    Space.GetEntity crowdedWorld 2 "Z" = some 12 ∧
    Space.GetEntity { crowdedWorld with entityManager := fun _ => none } 2 "Z" = none :=
  ⟨by decide, by decide,
    (GetEntity_iff_resolved_and_member crowdedWorld 2 "Z" 12).1.mpr ⟨by decide, by decide⟩,
    (GetEntity_iff_resolved_and_member { crowdedWorld with entityManager := fun _ => none }
      2 "Z" 12).2 rfl⟩

/-! ### C10: calls made by enter followed by move -/

/-- C10: for a space `s` that is not the nil space and has an AOI manager and
an entity `e` that uses AOI and rests in the nil space, `s.enter(e, pos, false)`
followed by `s.move(e, newPos)` both return normally, and the calls they make
to the AOI manager and to clients are exactly three, in this order:
`sendCreateEntity` of the entity of `s` (not as player) to the client of `e`,
`Enter(e, pos.X, pos.Z)` and `Moved(e, newPos.X, newPos.Z)`. So the manager
receives two calls, the client one create message, sent before `Enter`, and
`move` sends nothing to the client. The overrides are assumed to make no call
to the AOI manager or to a client and to leave the manager of `s` in place. -/
theorem enter_then_move_calls (env : Env) (w : World) (s e : Ptr) (pos newPos : Vector3)
    (hnull : (w.entity e).Space = w.nilSpace)
    (hkind : (w.space s).Kind ≠ 0)
    (hidx : (w.space s).aoiMgr ≠ none)
    (haoi : (w.entity e).IsUseAOI = true)
    (hcalls : env.overridesKeep
      (fun v => v.trace.filter (fun ev => ev.isAOICall || ev.isClientMessage)))
    (hmgr : env.overridesKeep (fun v => (v.space s).aoiMgr)) :
    ∃ w1 w2, Space.enter env s e pos false w = Outcome.ok w1 ∧
      Space.move s e newPos w1 = Outcome.ok w2 ∧
      w1.trace.filter (fun ev => ev.isAOICall || ev.isClientMessage) =
        w.trace.filter (fun ev => ev.isAOICall || ev.isClientMessage) ++
          [Event.sendCreateEntity (w.entity e).client s false,
           Event.aoiEnter s e pos.X pos.Z (w.entity e).client] ∧
      w2.trace.filter (fun ev => ev.isAOICall || ev.isClientMessage) =
        w.trace.filter (fun ev => ev.isAOICall || ev.isClientMessage) ++
          [Event.sendCreateEntity (w.entity e).client s false,
           Event.aoiEnter s e pos.X pos.Z (w.entity e).client,
           Event.aoiMoved s e newPos.X newPos.Z] := by
  obtain ⟨m, hm⟩ := Option.ne_none_iff_exists'.mp hidx
  have hent : Space.enter env s e pos false w =
      Outcome.ok (Space.enter env s e pos false w).world := by
    apply Outcome.eq_ok_of_not_panicked
    simp [Space.enter, hnull, Space.IsNil, hkind, haoi, hm, RunPanicless]
  have h1 : (Space.enter env s e pos false w).world.trace.filter
        (fun ev => ev.isAOICall || ev.isClientMessage) =
      w.trace.filter (fun ev => ev.isAOICall || ev.isClientMessage) ++
          [Event.sendCreateEntity (w.entity e).client s false,
           Event.aoiEnter s e pos.X pos.Z (w.entity e).client] := by
    simp only [Space.enter, hnull, Space.IsNil, hkind, haoi, hm, RunPanicless, ne_eq,
      not_true_eq_false, ite_false, decide_False, Bool.not_true, Bool.or_false,
      Bool.false_eq_true, World.modSpace_space, World.modEntity_space, ite_true,
      Outcome.world_ok]
    refine (two_hooks_keep env
      (fun v => v.trace.filter (fun ev => ev.isAOICall || ev.isClientMessage)) hcalls
      (fun _ _ _ _ => by simp [Event.isAOICall, Event.isClientMessage]) _ _ _ _ _ _ _).trans ?_
    simp [Event.isAOICall, Event.isClientMessage]
  have h2 : ((Space.enter env s e pos false w).world.space s).aoiMgr = some m := by
    simp only [Space.enter, hnull, Space.IsNil, hkind, haoi, hm, RunPanicless, ne_eq,
      not_true_eq_false, ite_false, decide_False, Bool.not_true, Bool.or_false,
      Bool.false_eq_true, World.modSpace_space, World.modEntity_space, ite_true,
      Outcome.world_ok]
    refine (two_hooks_keep env (fun v => (v.space s).aoiMgr) hmgr (fun _ _ _ _ => rfl)
      _ _ _ _ _ _ _).trans ?_
    simp [hm]
  refine ⟨(Space.enter env s e pos false w).world,
    (Space.move s e newPos (Space.enter env s e pos false w).world).world, hent, ?_, h1, ?_⟩
  · simp [Space.move, h2]
  · simp only [Space.move, h2, Outcome.world_ok, World.emit_trace, World.modEntity_trace,
      List.filter_append, h1]
    simp [Event.isAOICall, Event.isClientMessage]

/-- C10, witness: the avatar at address 10, whose client is at address 100,
enters the space with an AOI manager at address 2 at (0, 0, 0) and moves to
(50, 0, 0). -/
theorem enter_then_move_calls_witness :
    (demoWorld.space 2).aoiMgr = some demoAOI ∧ (demoWorld.entity 10).client = some 100 ∧
    ∃ w1 w2, Space.enter quietEnv 2 10 origin false demoWorld = Outcome.ok w1 ∧
      Space.move 2 10 fiftyEast w1 = Outcome.ok w2 ∧
      w1.trace.filter (fun ev => ev.isAOICall || ev.isClientMessage) =
        demoWorld.trace.filter (fun ev => ev.isAOICall || ev.isClientMessage) ++
          [Event.sendCreateEntity (demoWorld.entity 10).client 2 false,
           Event.aoiEnter 2 10 origin.X origin.Z (demoWorld.entity 10).client] ∧
      w2.trace.filter (fun ev => ev.isAOICall || ev.isClientMessage) =
        demoWorld.trace.filter (fun ev => ev.isAOICall || ev.isClientMessage) ++
          [Event.sendCreateEntity (demoWorld.entity 10).client 2 false,
           Event.aoiEnter 2 10 origin.X origin.Z (demoWorld.entity 10).client,
           Event.aoiMoved 2 10 fiftyEast.X fiftyEast.Z] :=
  ⟨by decide, by decide,
    enter_then_move_calls quietEnv demoWorld 2 10 origin fiftyEast (by decide) (by decide)
      (by decide) rfl (fun _ _ _ _ => rfl) (fun _ _ _ _ => rfl)⟩

/-! ### C11: the guard and the bookkeeping of enter -/

/-- C11: let `e` rest in the nil space. When `s` is the nil space (Kind 0) or
`e` does not use AOI, `s.enter(e, pos, isRestore)` returns the state it was
given: no call to the AOI manager or to a client, no override. Otherwise,
with or without AOI manager and for both values of `isRestore`, it returns
normally with `e` in the entity set of `s`, `e.Space == s`, and the sync flags
of `e` or-ed with `sifSyncOwnClient | sifSyncNeighborClients`: a bit of the new
flags is set exactly when it was set before or is set in one of the two
constants. The overrides are assumed to leave the Space and the sync flags of
`e` and the entity set of `s` alone. -/
theorem enter_guard_then_bookkeeping (env : Env) (w : World) (s e : Ptr) (pos : Vector3)
    (isRestore : Bool)
    (hnull : (w.entity e).Space = w.nilSpace)
    (hSpace : env.overridesKeep (fun v => (v.entity e).Space))
    (hflag : env.overridesKeep (fun v => (v.entity e).syncInfoFlag))
    (hset : env.overridesKeep (fun v => (v.space s).entities)) :
    (((w.space s).Kind = 0 ∨ (w.entity e).IsUseAOI = false) →
      Space.enter env s e pos isRestore w = Outcome.ok w) ∧
    (((w.space s).Kind ≠ 0 ∧ (w.entity e).IsUseAOI = true) →
      ∃ w1, Space.enter env s e pos isRestore w = Outcome.ok w1 ∧
        e ∈ (w1.space s).entities ∧ (w1.entity e).Space = some s ∧
        (w1.entity e).syncInfoFlag =
          (w.entity e).syncInfoFlag ||| (env.sifSyncOwnClient ||| env.sifSyncNeighborClients) ∧
        ∀ i, (w1.entity e).syncInfoFlag.testBit i =
          ((w.entity e).syncInfoFlag.testBit i || env.sifSyncOwnClient.testBit i ||
            env.sifSyncNeighborClients.testBit i)) := by
  constructor
  · intro h
    unfold Space.enter
    rw [if_neg (by simp [hnull]), if_pos]
    rcases h with h | h
    · simp [Space.IsNil, h]
    · simp [h]
  · rintro ⟨hkind, haoi⟩
    have key : (Space.enter env s e pos isRestore w).panicked = false ∧
        e ∈ ((Space.enter env s e pos isRestore w).world.space s).entities ∧
        ((Space.enter env s e pos isRestore w).world.entity e).Space = some s ∧
        ((Space.enter env s e pos isRestore w).world.entity e).syncInfoFlag =
          (w.entity e).syncInfoFlag |||
            (env.sifSyncOwnClient ||| env.sifSyncNeighborClients) := by
      cases hm : (w.space s).aoiMgr with
      | none => simp [Space.enter, hnull, Space.IsNil, hkind, haoi, hm]
      | some m =>
        cases isRestore with
        | true => simp [Space.enter, hnull, Space.IsNil, hkind, haoi, hm]
        | false =>
          simp only [Space.enter, hnull, Space.IsNil, hkind, haoi, hm, RunPanicless, ne_eq,
            not_true_eq_false, ite_false, decide_False, Bool.not_true, Bool.or_false,
            Bool.false_eq_true, World.modSpace_space, World.modEntity_space, ite_true,
            Outcome.world_ok, Outcome.panicked_ok, Bool.not_false, true_and]
          refine ⟨?_, ?_, ?_⟩
          · have h := two_hooks_keep env (fun v => (v.space s).entities) hset
              (fun _ _ _ _ => rfl) s e Method.OnEntityEnterSpace Method.OnEnterSpace [e] []
            simp only at h
            rw [h]
            simp
          · refine (two_hooks_keep env (fun v => (v.entity e).Space) hSpace
              (fun _ _ _ _ => rfl) _ _ _ _ _ _ _).trans ?_
            simp
          · refine (two_hooks_keep env (fun v => (v.entity e).syncInfoFlag) hflag
              (fun _ _ _ _ => rfl) _ _ _ _ _ _ _).trans ?_
            simp
    obtain ⟨h0, h1, h2, h3⟩ := key
    refine ⟨_, Outcome.eq_ok_of_not_panicked _ h0, h1, h2, h3, ?_⟩
    intro i
    rw [h3]
    simp [Nat.testBit_or, Bool.or_assoc]

/-- C11, witness: the avatar at address 10 enters the space without AOI
manager at address 1 and is placed there with sync flags 3; the entity at
address 11, which does not use AOI, enters without any effect. -/
theorem enter_guard_then_bookkeeping_witness :
    (demoWorld.entity 10).Space = demoWorld.nilSpace ∧
    Space.enter quietEnv 1 11 origin false demoWorld = Outcome.ok demoWorld ∧
    ∃ w1, Space.enter quietEnv 1 10 origin false demoWorld = Outcome.ok w1 ∧
        10 ∈ (w1.space 1).entities ∧ (w1.entity 10).Space = some 1 ∧
        (w1.entity 10).syncInfoFlag =
          (demoWorld.entity 10).syncInfoFlag |||
            (quietEnv.sifSyncOwnClient ||| quietEnv.sifSyncNeighborClients) ∧
        ∀ i, (w1.entity 10).syncInfoFlag.testBit i =
          ((demoWorld.entity 10).syncInfoFlag.testBit i ||
            quietEnv.sifSyncOwnClient.testBit i ||
            quietEnv.sifSyncNeighborClients.testBit i) :=
  ⟨by decide,
    (enter_guard_then_bookkeeping quietEnv demoWorld 1 11 origin false (by decide)
      (fun _ _ _ _ => rfl) (fun _ _ _ _ => rfl) (fun _ _ _ _ => rfl)).1
      (Or.inr (by decide)),
    (enter_guard_then_bookkeeping quietEnv demoWorld 1 10 origin false (by decide)
      (fun _ _ _ _ => rfl) (fun _ _ _ _ => rfl) (fun _ _ _ _ => rfl)).2
      ⟨by decide, by decide⟩⟩

/-! ### C12: a failure raised by an override called from enter -/

/-- C12: on a space `s` that is not the nil space and has an AOI manager, for
an entity `e` that uses AOI and rests in the nil space, `s.enter(e, pos, false)`
returns normally whatever the overrides `OnEntityEnterSpace` and
`OnEnterSpace` do, so also when one of them raises a failure; and the writes
made before the overrides stay: `e` is in the entity set of `s`, `e.Space == s`,
and the AOI manager has received `Enter(e, pos.X, pos.Z)`. The overrides are
assumed not to undo these writes themselves, whether they return or fail. -/
theorem enter_survives_override_failure (env : Env) (w : World) (s e : Ptr) (pos : Vector3)
    (hnull : (w.entity e).Space = w.nilSpace)
    (hkind : (w.space s).Kind ≠ 0)
    (hidx : (w.space s).aoiMgr ≠ none)
    (haoi : (w.entity e).IsUseAOI = true)
    (hSpace : env.overridesKeep (fun v => (v.entity e).Space))
    (hset : env.overridesKeep (fun v => (v.space s).entities))
    (hcalls : env.overridesKeep (fun v => v.trace.filter Event.isAOICall)) :
    ∃ w1, Space.enter env s e pos false w = Outcome.ok w1 ∧
      e ∈ (w1.space s).entities ∧ (w1.entity e).Space = some s ∧
      w1.trace.filter Event.isAOICall =
        w.trace.filter Event.isAOICall ++
          [Event.aoiEnter s e pos.X pos.Z (w.entity e).client] := by
  obtain ⟨m, hm⟩ := Option.ne_none_iff_exists'.mp hidx
  refine ⟨(Space.enter env s e pos false w).world, ?_, ?_, ?_, ?_⟩
  · apply Outcome.eq_ok_of_not_panicked
    simp [Space.enter, hnull, Space.IsNil, hkind, haoi, hm, RunPanicless]
  all_goals
    simp only [Space.enter, hnull, Space.IsNil, hkind, haoi, hm, RunPanicless, ne_eq,
      not_true_eq_false, ite_false, decide_False, Bool.not_true, Bool.or_false,
      Bool.false_eq_true, World.modSpace_space, World.modEntity_space, ite_true,
      Outcome.world_ok, Bool.not_false]
  · have h := two_hooks_keep env (fun v => (v.space s).entities) hset
      (fun _ _ _ _ => rfl) s e Method.OnEntityEnterSpace Method.OnEnterSpace [e] []
    simp only at h
    rw [h]
    simp
  · refine (two_hooks_keep env (fun v => (v.entity e).Space) hSpace
      (fun _ _ _ _ => rfl) _ _ _ _ _ _ _).trans ?_
    simp
  · refine (two_hooks_keep env (fun v => v.trace.filter Event.isAOICall) hcalls
      (fun _ _ _ _ => by simp [Event.isAOICall]) _ _ _ _ _ _ _).trans ?_
    simp [Event.isAOICall]

/-- C12, witness: in `failingEnv` the override `OnEntityEnterSpace` raises a
failure; the avatar at address 10 still enters the space at address 2. -/
theorem enter_survives_override_failure_witness :
    (∀ v, (failingEnv.override 2 Method.OnEntityEnterSpace [10] v).panicked = true) ∧
    ∃ w1, Space.enter failingEnv 2 10 origin false demoWorld = Outcome.ok w1 ∧
      10 ∈ (w1.space 2).entities ∧ (w1.entity 10).Space = some 2 ∧
      w1.trace.filter Event.isAOICall =
        demoWorld.trace.filter Event.isAOICall ++
          [Event.aoiEnter 2 10 origin.X origin.Z (demoWorld.entity 10).client] :=
  ⟨fun _ => rfl,
    enter_survives_override_failure failingEnv demoWorld 2 10 origin (by decide) (by decide)
      (by decide) (by decide)
      (fun _ m _ _ => by cases m <;> rfl) (fun _ m _ _ => by cases m <;> rfl)
      (fun _ m _ _ => by cases m <;> rfl)⟩

/-! ### C17: enter on the restoring path -/

/-- C17: on a space `s` that is not the nil space and has an AOI manager, for
an entity `e` that uses AOI and rests in the nil space, `s.enter(e, pos, true)`
returns normally and makes exactly one recorded call: `Enter(e, pos.X, pos.Z)`
on the AOI manager, made while the client link of `e` is nil. No
`sendCreateEntity` is sent and no override is dispatched, and afterwards the
client link of `e` is the one it had before the call. -/
theorem enter_restoring_path (env : Env) (w : World) (s e : Ptr) (pos : Vector3)
    (hnull : (w.entity e).Space = w.nilSpace)
    (hkind : (w.space s).Kind ≠ 0)
    (hidx : (w.space s).aoiMgr ≠ none)
    (haoi : (w.entity e).IsUseAOI = true) :
    ∃ w1, Space.enter env s e pos true w = Outcome.ok w1 ∧
      w1.trace = w.trace ++ [Event.aoiEnter s e pos.X pos.Z none] ∧
      (w1.entity e).client = (w.entity e).client := by
  obtain ⟨m, hm⟩ := Option.ne_none_iff_exists'.mp hidx
  refine ⟨(Space.enter env s e pos true w).world, ?_, ?_, ?_⟩
  · apply Outcome.eq_ok_of_not_panicked
    simp [Space.enter, hnull, Space.IsNil, hkind, haoi, hm]
  · simp [Space.enter, hnull, Space.IsNil, hkind, haoi, hm]
  · simp [Space.enter, hnull, Space.IsNil, hkind, haoi, hm]

/-- C17, witness: the avatar at address 10, whose client is at address 100, is
restored into the space with an AOI manager at address 2. -/
theorem enter_restoring_path_witness :
    (demoWorld.entity 10).client = some 100 ∧
    ∃ w1, Space.enter failingEnv 2 10 origin true demoWorld = Outcome.ok w1 ∧
      w1.trace = demoWorld.trace ++ [Event.aoiEnter 2 10 origin.X origin.Z none] ∧
      (w1.entity 10).client = (demoWorld.entity 10).client :=
  ⟨by decide,
    enter_restoring_path failingEnv demoWorld 2 10 origin (by decide) (by decide) (by decide)
      (by decide)⟩

/-! ### C13: a failure raised by an override called from leave -/

/-- C13, evaluation at the failing input: in `failingEnv` the override
`OnEntityLeaveSpace` raises a failure. `leave` of the avatar at address 10 from
the space with an AOI manager at address 2 then panics: the failure leaves
`leave`, and `OnLeaveSpace` is never dispatched on the entity. The same failure
raised by `OnEntityEnterSpace` does not leave `enter`. -/
theorem leave_propagates_override_failure :
    (crowdedWorld.entity 10).Space = some 2 ∧ (crowdedWorld.space 2).aoiMgr ≠ none ∧
    (Space.leave failingEnv 2 10 crowdedWorld).panicked = true ∧
    (Space.leave failingEnv 2 10 crowdedWorld).world.trace =
      crowdedWorld.trace ++
        [Event.aoiLeave 2 10, Event.sendDestroyEntity (some 100) 2,
         Event.compositive 2 Method.OnEntityLeaveSpace [10]] ∧
    Event.compositive 10 Method.OnLeaveSpace [2] ∉
      (Space.leave failingEnv 2 10 crowdedWorld).world.trace ∧
    (Space.enter failingEnv 2 10 origin false demoWorld).panicked = false := by
  decide

/-! ### C18: the order of the effects of leave -/

theorem enter_eq_panic_of_ne (env : Env) (w : World) (s e : Ptr) (pos : Vector3)
    (isRestore : Bool) (h : (w.entity e).Space ≠ w.nilSpace) :
    Space.enter env s e pos isRestore w = Outcome.panic w := by
  unfold Space.enter
  rw [if_pos h]

theorem enter_returns_of_eq (env : Env) (w : World) (s e : Ptr) (pos : Vector3)
    (isRestore : Bool) (h : (w.entity e).Space = w.nilSpace) :
    (Space.enter env s e pos isRestore w).panicked = false := by
  unfold Space.enter
  rw [if_neg (by simp [h])]
  split
  · rfl
  · simp only
    split
    · rfl
    · split <;> rfl

/-- C20: let `e.Space == s`. When `s` has an AOI manager, after `s.leave(e)` the
entity set of `s` does not contain `e` and `e.Space` is the nil space. When `s`
has no AOI manager, `leave` returns the state it was given: `e` stays where it
was, `e.Space` stays `s`, nothing is sent and no override is dispatched. So,
for a space `s` other than the nil space, `e` is removed and reset exactly when
`s` has an AOI manager; and after `leave` on a space without AOI manager
every later `enter` of `e`, into any space, panics at its precondition, unless
`s` is the nil space, in which case `enter` does not panic. The overrides are
assumed to leave the Space of `e`, the entity set of `s` and `nilSpace`
alone. -/
theorem leave_resets_iff_aoi (env : Env) (w : World) (s e : Ptr)
    (hsp : (w.entity e).Space = some s)
    (hSpace : env.overridesKeep (fun v => (v.entity e).Space))
    (hset : env.overridesKeep (fun v => (v.space s).entities))
    (hnil : env.overridesKeep World.nilSpace) :
    ((w.space s).aoiMgr ≠ none →
      e ∉ ((Space.leave env s e w).world.space s).entities ∧
      ((Space.leave env s e w).world.entity e).Space = w.nilSpace ∧
      (Space.leave env s e w).world.nilSpace = w.nilSpace) ∧
    ((w.space s).aoiMgr = none → Space.leave env s e w = Outcome.ok w) ∧
    (w.nilSpace ≠ some s →
      ((e ∉ ((Space.leave env s e w).world.space s).entities ∧
        ((Space.leave env s e w).world.entity e).Space =
          (Space.leave env s e w).world.nilSpace) ↔ (w.space s).aoiMgr ≠ none)) ∧
    ((w.space s).aoiMgr = none → w.nilSpace ≠ some s →
      ∀ (env2 : Env) (t : Ptr) (pos : Vector3) (isRestore : Bool),
        Space.enter env2 t e pos isRestore (Space.leave env s e w).world =
          Outcome.panic (Space.leave env s e w).world) ∧
    ((w.space s).aoiMgr = none → w.nilSpace = some s →
      ∀ (env2 : Env) (t : Ptr) (pos : Vector3) (isRestore : Bool),
        (Space.enter env2 t e pos isRestore (Space.leave env s e w).world).panicked
          = false) := by
  have hwith : (w.space s).aoiMgr ≠ none →
      e ∉ ((Space.leave env s e w).world.space s).entities ∧
      ((Space.leave env s e w).world.entity e).Space = w.nilSpace ∧
      (Space.leave env s e w).world.nilSpace = w.nilSpace := by
    intro hidx
    obtain ⟨m, hm⟩ := Option.ne_none_iff_exists'.mp hidx
    simp only [Space.leave, hsp, hm, ne_eq, not_true_eq_false, ite_false]
    refine ⟨?_, ?_, ?_⟩
    · have h := two_hooks_keep env (fun v => (v.space s).entities) hset
        (fun _ _ _ _ => rfl) s e Method.OnEntityLeaveSpace Method.OnLeaveSpace [e] [s]
      simp only at h
      rw [h]
      simp
    · refine (two_hooks_keep env (fun v => (v.entity e).Space) hSpace
        (fun _ _ _ _ => rfl) _ _ _ _ _ _ _).trans ?_
      simp
    · refine (two_hooks_keep env World.nilSpace hnil
        (fun _ _ _ _ => rfl) _ _ _ _ _ _ _).trans ?_
      simp
  have hwithout : (w.space s).aoiMgr = none → Space.leave env s e w = Outcome.ok w := by
    intro hm
    simp [Space.leave, hsp, hm]
  refine ⟨hwith, hwithout, ?_, ?_, ?_⟩
  · intro hne
    constructor
    · rintro ⟨_, h2⟩ hm
      rw [hwithout hm] at h2
      simp only [Outcome.world_ok, hsp] at h2
      exact hne h2.symm
    · intro hidx
      obtain ⟨h1, h2, h3⟩ := hwith hidx
      exact ⟨h1, h2.trans h3.symm⟩
  · intro hm hne env2 t pos isRestore
    apply enter_eq_panic_of_ne
    rw [hwithout hm]
    simp only [Outcome.world_ok, hsp]
    exact fun h => hne h.symm
  · intro hm heq env2 t pos isRestore
    apply enter_returns_of_eq
    rw [hwithout hm]
    simp only [Outcome.world_ok, hsp]
    exact heq.symm

/-- C20, witness: the avatar at address 10 has entered the space without AOI
manager at address 1; `leave` changes nothing, and its `enter` into the space
at address 2 panics afterwards. -/
theorem leave_resets_iff_aoi_witness :
    ((Space.enter quietEnv 1 10 origin false demoWorld).world.entity 10).Space = some 1 ∧
    Space.leave quietEnv 1 10 (Space.enter quietEnv 1 10 origin false demoWorld).world =
      Outcome.ok (Space.enter quietEnv 1 10 origin false demoWorld).world ∧
    Space.enter quietEnv 2 10 origin false
        (Space.leave quietEnv 1 10
          (Space.enter quietEnv 1 10 origin false demoWorld).world).world =
      Outcome.panic (Space.leave quietEnv 1 10
          (Space.enter quietEnv 1 10 origin false demoWorld).world).world :=
  ⟨by decide,
    (leave_resets_iff_aoi quietEnv (Space.enter quietEnv 1 10 origin false demoWorld).world
      1 10 (by decide) (fun _ _ _ _ => rfl) (fun _ _ _ _ => rfl) (fun _ _ _ _ => rfl)).2.1
      (by decide),
    (leave_resets_iff_aoi quietEnv (Space.enter quietEnv 1 10 origin false demoWorld).world
      1 10 (by decide) (fun _ _ _ _ => rfl) (fun _ _ _ _ => rfl)
      (fun _ _ _ _ => rfl)).2.2.2.1 (by decide) (by decide) quietEnv 2 origin false⟩

/-! ### C15 and C16: creation and restoration -/

theorem onSpaceCreated_of_putSpace_fails (env : Env) (w : World) (s : Ptr)
    (hput : env.putSpace w.spaceManager (w.entity s).ID s = none) :
    Space.onSpaceCreated env s w =
      Outcome.panic ((w.modSpace s (fun r => { r with Kind := (w.entity s).kindAttr })).emit
        (Event.putSpace s)) := by
  simp [Space.onSpaceCreated, putSpace, hput, Outcome.andThen]

theorem onSpaceCreated_of_kind_ne_zero (env : Env) (w : World) (s : Ptr)
    (table : EntityID → Option Ptr)
    (hput : env.putSpace w.spaceManager (w.entity s).ID s = some table)
    (hattr : (w.entity s).kindAttr ≠ 0) :
    Space.onSpaceCreated env s w =
      Outcome.ok { (w.modSpace s (fun r => { r with Kind := (w.entity s).kindAttr })).emit
        (Event.putSpace s) with spaceManager := table } := by
  simp [Space.onSpaceCreated, putSpace, hput, Outcome.andThen, hattr]

theorem onSpaceCreated_of_kind_zero (env : Env) (w : World) (s : Ptr)
    (table : EntityID → Option Ptr)
    (hput : env.putSpace w.spaceManager (w.entity s).ID s = some table)
    (hattr : (w.entity s).kindAttr = 0) :
    Space.onSpaceCreated env s w =
      if w.nilSpace ≠ none then
        Outcome.panic { (w.modSpace s (fun r => { r with Kind := 0 })).emit
          (Event.putSpace s) with spaceManager := table }
      else
        Outcome.ok (World.modEntity
          { (w.modSpace s (fun r => { r with Kind := 0 })).emit
            (Event.putSpace s) with spaceManager := table, nilSpace := some s }
          s (fun r => { r with Space := some s })) := by
  simp [Space.onSpaceCreated, putSpace, hput, Outcome.andThen, hattr]

theorem onSpaceCreated_kind_trace (env : Env) (w : World) (s : Ptr) :
    ((Space.onSpaceCreated env s w).world.space s).Kind = (w.entity s).kindAttr ∧
    (Space.onSpaceCreated env s w).world.trace = w.trace ++ [Event.putSpace s] := by
  cases hput : env.putSpace w.spaceManager (w.entity s).ID s with
  | none =>
    rw [onSpaceCreated_of_putSpace_fails env w s hput]
    simp
  | some table =>
    by_cases hattr : (w.entity s).kindAttr = 0
    · rw [onSpaceCreated_of_kind_zero env w s table hput hattr]
      split <;> simp [hattr]
    · rw [onSpaceCreated_of_kind_ne_zero env w s table hput hattr]
      simp

/-- C15: `OnCreated` and `OnRestored` both set Kind from the kind attribute and
call `putSpace` on the space, whether they go on to return or to panic.
`OnRestored` makes no other recorded call, so it never dispatches
`OnSpaceCreated`. `OnCreated` makes no other call when the kind attribute is 0,
and when it is not 0 and `putSpace` returns it dispatches `OnSpaceCreated` on
the space exactly once, after `putSpace`. The override bodies are assumed to
make no recorded call and to leave the Kind of the space alone. -/
theorem created_and_restored (env : Env) (w : World) (s : Ptr)
    (htrace : env.overridesKeep World.trace)
    (hKind : env.overridesKeep (fun v => (v.space s).Kind)) :
    ((Space.OnRestored env s w).world.space s).Kind = (w.entity s).kindAttr ∧
    ((Space.OnCreated env s w).world.space s).Kind = (w.entity s).kindAttr ∧
    (Space.OnRestored env s w).world.trace = w.trace ++ [Event.putSpace s] ∧
    ((w.entity s).kindAttr = 0 →
      (Space.OnCreated env s w).world.trace = w.trace ++ [Event.putSpace s]) ∧
    ((w.entity s).kindAttr ≠ 0 →
      env.putSpace w.spaceManager (w.entity s).ID s ≠ none →
      (Space.OnCreated env s w).world.trace =
        w.trace ++ [Event.putSpace s, Event.compositive s Method.OnSpaceCreated []]) := by
  obtain ⟨hk, ht⟩ := onSpaceCreated_kind_trace env w s
  have hzero : (w.entity s).kindAttr = 0 →
      Space.OnCreated env s w = Space.onSpaceCreated env s w := by
    intro hattr
    unfold Space.OnCreated
    cases hr : Space.onSpaceCreated env s w with
    | panic v => rfl
    | ok v =>
      have : (v.space s).Kind = 0 := by
        have := hk
        rw [hr] at this
        simpa [hattr] using this
      simp [Outcome.andThen, Space.IsNil, this]
  have hnz : (w.entity s).kindAttr ≠ 0 → ∀ table,
      env.putSpace w.spaceManager (w.entity s).ID s = some table →
      Space.OnCreated env s w = callCompositiveMethod env s Method.OnSpaceCreated []
        { (w.modSpace s (fun r => { r with Kind := (w.entity s).kindAttr })).emit
          (Event.putSpace s) with spaceManager := table } := by
    intro hattr table hput
    unfold Space.OnCreated
    rw [onSpaceCreated_of_kind_ne_zero env w s table hput hattr]
    simp [Outcome.andThen, Space.IsNil, hattr]
  refine ⟨hk, ?_, ht, ?_, ?_⟩
  · by_cases hattr : (w.entity s).kindAttr = 0
    · rw [hzero hattr]; exact hk
    · cases hput : env.putSpace w.spaceManager (w.entity s).ID s with
      | none =>
        unfold Space.OnCreated
        rw [onSpaceCreated_of_putSpace_fails env w s hput]
        simp [Outcome.andThen]
      | some table =>
        rw [hnz hattr table hput]
        refine (callCompositiveMethod_keep env (fun v => (v.space s).Kind) hKind
          (fun _ _ _ _ => rfl) _ _ _ _).trans ?_
        simp
  · intro hattr
    rw [hzero hattr]; exact ht
  · intro hattr hput
    obtain ⟨table, hput⟩ := Option.ne_none_iff_exists'.mp hput
    rw [hnz hattr table hput]
    unfold callCompositiveMethod
    rw [htrace]
    simp

/-- C15, witness: the record at address 1 has kind attribute 1; in the fresh
process `OnCreated` dispatches `OnSpaceCreated` once and `OnRestored` does
not. -/
theorem created_and_restored_witness :
    (freshWorld.entity 1).kindAttr = 1 ∧
    (Space.OnRestored quietEnv 1 freshWorld).world.trace =
      freshWorld.trace ++ [Event.putSpace 1] ∧
    (Space.OnCreated quietEnv 1 freshWorld).world.trace =
      freshWorld.trace ++ [Event.putSpace 1, Event.compositive 1 Method.OnSpaceCreated []] :=
  ⟨by decide,
    (created_and_restored quietEnv freshWorld 1 (fun _ _ _ _ => rfl)
      (fun _ _ _ _ => rfl)).2.2.1,
    (created_and_restored quietEnv freshWorld 1 (fun _ _ _ _ => rfl)
      (fun _ _ _ _ => rfl)).2.2.2.2 (by decide) (by simp [quietEnv])⟩

/-- C16, counterexample: `OnRestored` of the record at address 0, whose kind
attribute is 0, in the fresh process returns normally and installs it as the
nil space; and `OnRestored` of the record at address 11, whose kind attribute
is 0 as well, in the demo state, where a nil space exists, panics. -/
theorem OnRestored_touches_nil_space :
    freshWorld.nilSpace = none ∧
    (Space.OnRestored quietEnv 0 freshWorld).panicked = false ∧
    (Space.OnRestored quietEnv 0 freshWorld).world.nilSpace = some 0 ∧
    demoWorld.nilSpace = some 0 ∧
    (Space.OnRestored quietEnv 11 demoWorld).panicked = true := by
  decide

/-- C16, amended: `OnRestored` never dispatches `OnSpaceCreated`. For a space
whose kind attribute is not 0 it sets the Kind of the space, calls `putSpace`
and, when that returns, returns normally with the table `putSpace` gave;
`nilSpace`, the entity records, the entity manager and the other space records
are as before, and of the space itself only the Kind is written. For a space
whose kind attribute is 0 it does what creation does: when `putSpace` returns
and no nil space exists it installs the space as the nil space and sets its
Space reference to itself, and when a nil space already exists it panics. -/
theorem OnRestored_effects (env : Env) (w : World) (s : Ptr) :
    (Space.OnRestored env s w).world.trace = w.trace ++ [Event.putSpace s] ∧
    ((w.entity s).kindAttr ≠ 0 →
      (Space.OnRestored env s w).world.nilSpace = w.nilSpace ∧
      (Space.OnRestored env s w).world.entity = w.entity ∧
      (Space.OnRestored env s w).world.entityManager = w.entityManager ∧
      (∀ q, q ≠ s → (Space.OnRestored env s w).world.space q = w.space q) ∧
      (Space.OnRestored env s w).world.space s =
        { w.space s with Kind := (w.entity s).kindAttr } ∧
      ∀ table, env.putSpace w.spaceManager (w.entity s).ID s = some table →
        (Space.OnRestored env s w).panicked = false ∧
        (Space.OnRestored env s w).world.spaceManager = table) ∧
    ((w.entity s).kindAttr = 0 → w.nilSpace = none →
      ∀ table, env.putSpace w.spaceManager (w.entity s).ID s = some table →
        (Space.OnRestored env s w).panicked = false ∧
        (Space.OnRestored env s w).world.nilSpace = some s ∧
        ((Space.OnRestored env s w).world.entity s).Space = some s) ∧
    ((w.entity s).kindAttr = 0 → w.nilSpace ≠ none →
      (Space.OnRestored env s w).panicked = true ∧
      (Space.OnRestored env s w).world.nilSpace = w.nilSpace) := by
  unfold Space.OnRestored
  refine ⟨(onSpaceCreated_kind_trace env w s).2, ?_, ?_, ?_⟩
  · intro hattr
    cases hput : env.putSpace w.spaceManager (w.entity s).ID s with
    | none =>
      rw [onSpaceCreated_of_putSpace_fails env w s hput]
      refine ⟨by simp, by simp, by simp, ?_, by simp, ?_⟩
      · intro q hq
        simp [hq]
      · intro table h
        simp at h
    | some table =>
      rw [onSpaceCreated_of_kind_ne_zero env w s table hput hattr]
      refine ⟨by simp, by simp, by simp, ?_, by simp, ?_⟩
      · intro q hq
        simp [hq]
      · intro table2 h
        simp only [Option.some.injEq] at h
        simp [h]
  · intro hattr hnil table hput
    rw [onSpaceCreated_of_kind_zero env w s table hput hattr]
    simp [hnil]
  · intro hattr hnil
    cases hput : env.putSpace w.spaceManager (w.entity s).ID s with
    | none =>
      rw [onSpaceCreated_of_putSpace_fails env w s hput]
      simp
    | some table =>
      rw [onSpaceCreated_of_kind_zero env w s table hput hattr]
      simp [hnil]

/-- C16, witness: restoring the space of kind 1 at address 1 in the demo
state leaves `nilSpace` alone; restoring a record of kind 0 there panics. -/
theorem OnRestored_effects_witness :
    (demoWorld.entity 1).kindAttr ≠ 0 ∧
    (Space.OnRestored quietEnv 1 demoWorld).world.nilSpace = demoWorld.nilSpace ∧
    (Space.OnRestored quietEnv 1 demoWorld).world.entity = demoWorld.entity ∧
    (demoWorld.entity 11).kindAttr = 0 ∧
    (Space.OnRestored quietEnv 11 demoWorld).panicked = true :=
  ⟨by decide,
    ((OnRestored_effects quietEnv demoWorld 1).2.1 (by decide)).1,
    ((OnRestored_effects quietEnv demoWorld 1).2.1 (by decide)).2.1,
    by decide,
    ((OnRestored_effects quietEnv demoWorld 11).2.2.2 (by decide) (by decide)).1⟩

/-! ### C19: ForEachEntity -/

/-- C19, counterexample: the space at address 2 holds the avatar 10 and the
monster 12, walked in this order. The visitor, called on 10, makes 12 leave the
space; `ForEachEntity` then returns without calling the visitor on 12, which
was a member when the call began: 12 is not marked, whereas a traversal of a
snapshot marks it. -/
theorem ForEachEntity_skips_removed_member :
    12 ∈ (crowdedWorld.space 2).entities ∧
    quietEnv.rangeOrder (crowdedWorld.space 2).entities = [10, 12] ∧
    (Space.ForEachEntity quietEnv 2 evictingVisitor crowdedWorld).panicked = false ∧
    ((Space.ForEachEntity quietEnv 2 evictingVisitor crowdedWorld).world.entity 10).TypeName
      = "visited" ∧
    ((Space.ForEachEntity quietEnv 2 evictingVisitor crowdedWorld).world.entity 12).TypeName
      = "Monster" ∧
    ((forEachSnapshot evictingVisitor [10, 12] crowdedWorld).world.entity 12).TypeName
      = "visited" := by
  decide

theorem rangeEntities_eq_snapshot (s : Ptr) (f : Ptr → World → Outcome)
    (hkeep : ∀ x v y, y ≠ x →
      (y ∈ ((f x v).world.space s).entities ↔ y ∈ (v.space s).entities)) :
    ∀ (l : List Ptr) (v : World), l.Nodup → (∀ x ∈ l, x ∈ (v.space s).entities) →
      rangeEntities s f l v = forEachSnapshot f l v := by
  intro l
  induction l with
  | nil => intro v _ _; rfl
  | cons e rest ih =>
    intro v hnd hmem
    simp only [rangeEntities, hmem e (List.mem_cons_self e rest), ite_true, forEachSnapshot]
    cases hf : f e v with
    | panic v1 => rfl
    | ok v1 =>
      simp only [Outcome.andThen]
      apply ih v1 (List.nodup_cons.mp hnd).2
      intro x hx
      have hne : x ≠ e := by
        intro hxe
        exact (List.nodup_cons.mp hnd).1 (hxe ▸ hx)
      have := (hkeep e v x hne).mpr (hmem x (List.mem_cons_of_mem e hx))
      rw [hf] at this
      exact this

/-- C19, amended: `ForEachEntity` walks the live entity set. When a call of the
visitor removes from the entity set of `s` at most the entity it is called on
(and adds none), `s.ForEachEntity(f)` does what a traversal of a snapshot does:
it calls `f` once on each entity that was a member when the call began, in the
order of the walk, stopping if `f` panics. The walk is assumed to list each
member once. -/
theorem ForEachEntity_eq_snapshot (env : Env) (w : World) (s : Ptr)
    (f : Ptr → World → Outcome)
    (horder : (env.rangeOrder (w.space s).entities).Nodup ∧
      ∀ x, x ∈ env.rangeOrder (w.space s).entities ↔ x ∈ (w.space s).entities)
    (hkeep : ∀ x v y, y ≠ x →
      (y ∈ ((f x v).world.space s).entities ↔ y ∈ (v.space s).entities)) :
    Space.ForEachEntity env s f w =
      forEachSnapshot f (env.rangeOrder (w.space s).entities) w := by
  unfold Space.ForEachEntity
  exact rangeEntities_eq_snapshot s f hkeep _ w horder.1 (fun x hx => (horder.2 x).mp hx)

theorem leavingVisitor_keeps_others (x : Ptr) (v : World) (y : Ptr) (hy : y ≠ x) :
    y ∈ ((leavingVisitor x v).world.space 2).entities ↔ y ∈ (v.space 2).entities := by
  unfold leavingVisitor Space.leave
  split
  · rfl
  · cases hm : (v.space 2).aoiMgr with
    | none => rfl
    | some m =>
      have h := two_hooks_keep quietEnv (fun u => (u.space 2).entities)
        (fun _ _ _ _ => rfl) (fun _ _ _ _ => rfl) 2 x Method.OnEntityLeaveSpace
        Method.OnLeaveSpace [x] [2]
      simp only at h
      simp only [h]
      simp [hy]

/-- C19, witness: every entity visited leaves the space at address 2 during
its own visit; both members of the space are visited. -/
theorem ForEachEntity_eq_snapshot_witness :
    (crowdedWorld.space 2).entities.card = 2 ∧
    Space.ForEachEntity quietEnv 2 leavingVisitor crowdedWorld =
      forEachSnapshot leavingVisitor (quietEnv.rangeOrder (crowdedWorld.space 2).entities)
        crowdedWorld :=
  ⟨by decide,
    ForEachEntity_eq_snapshot quietEnv crowdedWorld 2 leavingVisitor
      (ascending_nodup_mem (crowdedWorld.space 2).entities) leavingVisitor_keeps_others⟩

/-! ### C14: an entity is a member of at most one space -/

theorem enter_containment (env : Env) (w : World) (s e : Ptr) (pos : Vector3)
    (isRestore : Bool)
    (hSpace : env.overridesKeep (fun v => fun p => (v.entity p).Space))
    (hspaces : env.overridesKeep World.space)
    (hnil : env.overridesKeep World.nilSpace) :
    (Space.enter env s e pos isRestore w).world.nilSpace = w.nilSpace ∧
    (∀ q, ((Space.enter env s e pos isRestore w).world.space q).Kind = (w.space q).Kind) ∧
    (((∀ p, ((Space.enter env s e pos isRestore w).world.entity p).Space =
          (w.entity p).Space) ∧
        (∀ q, ((Space.enter env s e pos isRestore w).world.space q).entities =
          (w.space q).entities)) ∨
      ((w.entity e).Space = w.nilSpace ∧ (w.space s).Kind ≠ 0 ∧
        (∀ p, ((Space.enter env s e pos isRestore w).world.entity p).Space =
          if p = e then some s else (w.entity p).Space) ∧
        (∀ q, ((Space.enter env s e pos isRestore w).world.space q).entities =
          if q = s then insert e (w.space q).entities else (w.space q).entities))) := by
  by_cases hnull : (w.entity e).Space = w.nilSpace
  · by_cases hguard : (w.space s).Kind = 0 ∨ (w.entity e).IsUseAOI = false
    · have : Space.enter env s e pos isRestore w = Outcome.ok w := by
        unfold Space.enter
        rw [if_neg (by simp [hnull]), if_pos]
        rcases hguard with h | h
        · simp [Space.IsNil, h]
        · simp [h]
      rw [this]
      exact ⟨rfl, fun _ => rfl, Or.inl ⟨fun _ => rfl, fun _ => rfl⟩⟩
    · have hkind : (w.space s).Kind ≠ 0 := fun h => hguard (Or.inl h)
      have haoi : (w.entity e).IsUseAOI = true := by
        cases h : (w.entity e).IsUseAOI
        · exact absurd (Or.inr h) hguard
        · rfl
      have key : (Space.enter env s e pos isRestore w).world.nilSpace = w.nilSpace ∧
          (fun p => ((Space.enter env s e pos isRestore w).world.entity p).Space) =
            (fun p => if p = e then some s else (w.entity p).Space) ∧
          (Space.enter env s e pos isRestore w).world.space =
            (fun q => if q = s then
              { w.space q with entities := insert e (w.space q).entities }
              else w.space q) := by
        cases hm : (w.space s).aoiMgr with
        | none =>
          simp only [Space.enter, hnull, Space.IsNil, hkind, haoi, hm, ne_eq,
            not_true_eq_false, ite_false, decide_False, Bool.not_true, Bool.or_false,
            Bool.false_eq_true, World.modSpace_space, World.modEntity_space, ite_true,
            Outcome.world_ok]
          refine ⟨rfl, ?_, rfl⟩
          funext p
          by_cases hp : p = e <;> simp [hp]
        | some m =>
          cases isRestore with
          | true =>
            simp only [Space.enter, hnull, Space.IsNil, hkind, haoi, hm, ne_eq,
              not_true_eq_false, ite_false, decide_False, Bool.not_true, Bool.or_false,
              Bool.false_eq_true, World.modSpace_space, World.modEntity_space, ite_true,
              Outcome.world_ok]
            refine ⟨rfl, ?_, rfl⟩
            funext p
            by_cases hp : p = e <;> simp [hp]
          | false =>
            simp only [Space.enter, hnull, Space.IsNil, hkind, haoi, hm, RunPanicless, ne_eq,
              not_true_eq_false, ite_false, decide_False, Bool.not_true, Bool.or_false,
              Bool.false_eq_true, World.modSpace_space, World.modEntity_space, ite_true,
              Outcome.world_ok, Bool.not_false]
            refine ⟨?_, ?_, ?_⟩
            · exact two_hooks_keep env World.nilSpace hnil (fun _ _ _ _ => rfl) _ _ _ _ _ _ _
            · refine (two_hooks_keep env (fun v => fun p => (v.entity p).Space) hSpace
                (fun _ _ _ _ => rfl) _ _ _ _ _ _ _).trans ?_
              funext p
              by_cases hp : p = e <;> simp [hp]
            · exact two_hooks_keep env World.space hspaces (fun _ _ _ _ => rfl) _ _ _ _ _ _ _
      obtain ⟨h1, h2, h3⟩ := key
      refine ⟨h1, ?_, Or.inr ⟨hnull, hkind, fun p => congrFun h2 p, ?_⟩⟩
      · intro q
        rw [h3]
        by_cases hq : q = s <;> simp [hq]
      · intro q
        rw [h3]
        by_cases hq : q = s <;> simp [hq]
  · have : Space.enter env s e pos isRestore w = Outcome.panic w := by
      unfold Space.enter
      rw [if_pos hnull]
    rw [this]
    exact ⟨rfl, fun _ => rfl, Or.inl ⟨fun _ => rfl, fun _ => rfl⟩⟩

theorem leave_containment (env : Env) (w : World) (s e : Ptr)
    (hSpace : env.overridesKeep (fun v => fun p => (v.entity p).Space))
    (hspaces : env.overridesKeep World.space)
    (hnil : env.overridesKeep World.nilSpace) :
    (Space.leave env s e w).world.nilSpace = w.nilSpace ∧
    (∀ q, ((Space.leave env s e w).world.space q).Kind = (w.space q).Kind) ∧
    (((∀ p, ((Space.leave env s e w).world.entity p).Space = (w.entity p).Space) ∧
        (∀ q, ((Space.leave env s e w).world.space q).entities = (w.space q).entities)) ∨
      ((w.entity e).Space = some s ∧
        (∀ p, ((Space.leave env s e w).world.entity p).Space =
          if p = e then w.nilSpace else (w.entity p).Space) ∧
        (∀ q, ((Space.leave env s e w).world.space q).entities =
          if q = s then (w.space q).entities.erase e else (w.space q).entities))) := by
  by_cases hsp : (w.entity e).Space = some s
  · cases hm : (w.space s).aoiMgr with
    | none =>
      have : Space.leave env s e w = Outcome.ok w := by simp [Space.leave, hsp, hm]
      rw [this]
      exact ⟨rfl, fun _ => rfl, Or.inl ⟨fun _ => rfl, fun _ => rfl⟩⟩
    | some m =>
      have key : (Space.leave env s e w).world.nilSpace = w.nilSpace ∧
          (fun p => ((Space.leave env s e w).world.entity p).Space) =
            (fun p => if p = e then w.nilSpace else (w.entity p).Space) ∧
          (Space.leave env s e w).world.space =
            (fun q => if q = s then
              { w.space q with entities := (w.space q).entities.erase e }
              else w.space q) := by
        simp only [Space.leave, hsp, hm, ne_eq, not_true_eq_false, ite_false]
        refine ⟨?_, ?_, ?_⟩
        · exact two_hooks_keep env World.nilSpace hnil (fun _ _ _ _ => rfl) _ _ _ _ _ _ _
        · refine (two_hooks_keep env (fun v => fun p => (v.entity p).Space) hSpace
            (fun _ _ _ _ => rfl) _ _ _ _ _ _ _).trans ?_
          funext p
          by_cases hp : p = e <;> simp [hp]
        · exact two_hooks_keep env World.space hspaces (fun _ _ _ _ => rfl) _ _ _ _ _ _ _
      obtain ⟨h1, h2, h3⟩ := key
      refine ⟨h1, ?_, Or.inr ⟨hsp, fun p => congrFun h2 p, ?_⟩⟩
      · intro q
        rw [h3]
        by_cases hq : q = s <;> simp [hq]
      · intro q
        rw [h3]
        by_cases hq : q = s <;> simp [hq]
  · have : Space.leave env s e w = Outcome.panic w := by
      unfold Space.leave
      rw [if_pos hsp]
    rw [this]
    exact ⟨rfl, fun _ => rfl, Or.inl ⟨fun _ => rfl, fun _ => rfl⟩⟩

theorem move_containment (w : World) (s e : Ptr) (newPos : Vector3) :
    (Space.move s e newPos w).world.nilSpace = w.nilSpace ∧
    (Space.move s e newPos w).world.space = w.space ∧
    (∀ p, ((Space.move s e newPos w).world.entity p).Space = (w.entity p).Space) := by
  cases hm : (w.space s).aoiMgr with
  | none => simp [Space.move, hm]
  | some m =>
    simp only [Space.move, hm, Outcome.world_ok, World.emit_nilSpace, World.modEntity_nilSpace,
      World.emit_space, World.modEntity_space, World.emit_entity, World.modEntity_entity,
      true_and]
    intro p
    by_cases hp : p = e <;> simp [hp]

theorem reachable_invariant (env : Env)
    (hSpace : env.overridesKeep (fun v => fun p => (v.entity p).Space))
    (hspaces : env.overridesKeep World.space)
    (hnil : env.overridesKeep World.nilSpace)
    (w : World) (hw : Reachable env w) :
    (∀ s e, e ∈ (w.space s).entities →
      (w.entity e).Space = some s ∧ w.nilSpace ≠ some s) ∧
    (∀ n, w.nilSpace = some n → (w.space n).Kind = 0) := by
  induction hw with
  | start w h =>
    obtain ⟨h1, _, h3⟩ := h
    refine ⟨?_, h3⟩
    intro s e he
    rw [h1 s] at he
    simp at he
  | enter w w1 s e pos isRestore _ hstep ih =>
    obtain ⟨ih1, ih2⟩ := ih
    obtain ⟨hn, hK, hc⟩ := enter_containment env w s e pos isRestore hSpace hspaces hnil
    rw [hstep] at hn hK hc
    simp only [Outcome.world_ok] at hn hK hc
    refine ⟨?_, ?_⟩
    · intro s1 e1 he1
      rw [hn]
      rcases hc with ⟨hE, hS⟩ | ⟨hnull, hkind, hE, hS⟩
      · rw [hE, hS] at *
        exact ih1 s1 e1 he1
      · rw [hE, hS] at *
        by_cases hs : s1 = s
        · subst hs
          have hnot : w.nilSpace ≠ some s1 := fun h => hkind (ih2 s1 h)
          simp only [ite_true, Finset.mem_insert] at he1
          by_cases he : e1 = e
          · simp [he, hnot]
          · simp only [he, ite_false]
            rcases he1 with h | h
            · exact absurd h he
            · exact ih1 s1 e1 h
        · simp only [hs, ite_false] at he1
          obtain ⟨h1, h2⟩ := ih1 s1 e1 he1
          by_cases he : e1 = e
          · subst he
            rw [hnull] at h1
            exact absurd h1 h2
          · simp only [he, ite_false]
            exact ⟨h1, h2⟩
    · intro n hnn
      rw [hn] at hnn
      rw [hK]
      exact ih2 n hnn
  | leave w w1 s e _ hstep ih =>
    obtain ⟨ih1, ih2⟩ := ih
    obtain ⟨hn, hK, hc⟩ := leave_containment env w s e hSpace hspaces hnil
    rw [hstep] at hn hK hc
    simp only [Outcome.world_ok] at hn hK hc
    refine ⟨?_, ?_⟩
    · intro s1 e1 he1
      rw [hn]
      rcases hc with ⟨hE, hS⟩ | ⟨hsp, hE, hS⟩
      · rw [hE, hS] at *
        exact ih1 s1 e1 he1
      · rw [hE, hS] at *
        by_cases hs : s1 = s
        · subst hs
          simp only [ite_true, Finset.mem_erase] at he1
          simp only [he1.1, ite_false]
          exact ih1 s1 e1 he1.2
        · simp only [hs, ite_false] at he1
          obtain ⟨h1, h2⟩ := ih1 s1 e1 he1
          by_cases he : e1 = e
          · subst he
            rw [hsp] at h1
            exact absurd (Option.some.inj h1).symm hs
          · simp only [he, ite_false]
            exact ⟨h1, h2⟩
    · intro n hnn
      rw [hn] at hnn
      rw [hK]
      exact ih2 n hnn
  | move w w1 s e newPos _ hstep ih =>
    obtain ⟨ih1, ih2⟩ := ih
    obtain ⟨hn, hS, hE⟩ := move_containment w s e newPos
    rw [hstep] at hn hS hE
    simp only [Outcome.world_ok] at hn hS hE
    refine ⟨?_, ?_⟩
    · intro s1 e1 he1
      rw [hn, hE, hS] at *
      exact ih1 s1 e1 he1
    · intro n hnn
      rw [hn] at hnn
      rw [hS]
      exact ih2 n hnn

/-- C14: in every state reached from a starting state (every entity set empty,
every entity resting in the nil space) by calls of `enter`, `leave` and `move`
that return normally, on any spaces and entities, an entity is a member of the
entity set of a space `s` only if its Space reference is `s`, and so it is a
member of at most one entity set. The override bodies are assumed to leave the
Space references, the space records and `nilSpace` alone. -/
theorem member_of_at_most_one_space (env : Env)
    (hSpace : env.overridesKeep (fun v => fun p => (v.entity p).Space))
    (hspaces : env.overridesKeep World.space)
    (hnil : env.overridesKeep World.nilSpace)
    (w : World) (hw : Reachable env w) :
    (∀ s e, e ∈ (w.space s).entities → (w.entity e).Space = some s) ∧
    (∀ s t e, e ∈ (w.space s).entities → e ∈ (w.space t).entities → s = t) := by
  obtain ⟨h1, _⟩ := reachable_invariant env hSpace hspaces hnil w hw
  refine ⟨fun s e he => (h1 s e he).1, ?_⟩
  intro s t e hs ht
  have := (h1 s e hs).1.symm.trans (h1 t e ht).1
  exact Option.some.inj this

theorem demoWorld_initial : Initial demoWorld := by
  refine ⟨?_, ?_, ?_⟩
  · intro s
    simp only [demoWorld]
    split_ifs <;> rfl
  · intro e
    simp only [demoWorld]
    split_ifs <;> rfl
  · intro n hn
    have : n = 0 := by
      simp only [demoWorld, Option.some.injEq] at hn
      exact hn.symm
    subst this
    rfl

theorem crowdedWorld_reachable : Reachable quietEnv crowdedWorld :=
  Reachable.enter _ _ 2 12 origin false
    (Reachable.enter _ _ 2 10 origin false (Reachable.start demoWorld demoWorld_initial)
      (Outcome.eq_ok_of_not_panicked _ (by decide)))
    (Outcome.eq_ok_of_not_panicked _ (by decide))

/-- C14, witness: the state in which the avatar 10 and the monster 12 have
entered the space at address 2 is reached from the demo state. -/
theorem member_of_at_most_one_space_witness :
    Reachable quietEnv crowdedWorld ∧ 10 ∈ (crowdedWorld.space 2).entities ∧
    (∀ s e, e ∈ (crowdedWorld.space s).entities → (crowdedWorld.entity e).Space = some s) ∧
    (∀ s t e, e ∈ (crowdedWorld.space s).entities → e ∈ (crowdedWorld.space t).entities →
      s = t) :=
  ⟨crowdedWorld_reachable, by decide,
    member_of_at_most_one_space quietEnv (fun _ _ _ _ => rfl) (fun _ _ _ _ => rfl)
      (fun _ _ _ _ => rfl) crowdedWorld crowdedWorld_reachable⟩

end Goworld
